import Mathlib

/-!
Verification development for the host-side core of an OpenGL ray/path tracer.

The C++ sources are shallowly embedded:
* `glm::vec3` / `glm::vec4` / `glm::mat4` become record types over `ℚ`
  (float arithmetic modelled by exact rationals; the properties verified
  here are order/combinatorial and do not depend on rounding),
* `std::vector` becomes `List` (push_back is append, `operator[]` writes
  become `List.set`, reads become `List.getD`),
* machine `int` fields become `Int`, `GLuint` handles become `Nat`,
* `std::nth_element` is modelled by a stable insertion sort of the
  addressed subrange — one admissible implementation of its postcondition,
* recursion that C++ realises with call-stack/explicit-stack loops is
  fuel-indexed; at every call site the fuel is provably sufficient, and a
  fuel-irrelevance lemma shows the result does not depend on it.
* OpenGL object creation is modelled with an explicit fresh-name counter
  (`nextId`), and texture contents with a small `TexContent` type, so that
  "no reallocation happened" and "buffer was cleared" are observable.
-/

set_option maxRecDepth 100000

unseal Rat.add Rat.mul Rat.sub Rat.inv Rat.ofScientific

/-- Rational 3-vector standing in for `glm::vec3`. -/
structure Vec3 where
  x : ℚ
  y : ℚ
  z : ℚ
deriving DecidableEq

instance : Inhabited Vec3 := ⟨⟨0, 0, 0⟩⟩

instance : Add Vec3 := ⟨fun a b => ⟨a.x + b.x, a.y + b.y, a.z + b.z⟩⟩

instance : Sub Vec3 := ⟨fun a b => ⟨a.x - b.x, a.y - b.y, a.z - b.z⟩⟩

/-- Componentwise `glm::min`. -/
def vmin (a b : Vec3) : Vec3 := ⟨min a.x b.x, min a.y b.y, min a.z b.z⟩

/-- Componentwise `glm::max`. -/
def vmax (a b : Vec3) : Vec3 := ⟨max a.x b.x, max a.y b.y, max a.z b.z⟩

/-- Scalar multiple of a vector (`v * s` in glm). -/
def vscale (a : Vec3) (s : ℚ) : Vec3 := ⟨a.x * s, a.y * s, a.z * s⟩

/-- Component access `v[axis]` used by the split comparator. -/
def Vec3.nth (v : Vec3) (i : Nat) : ℚ :=
  if i = 0 then v.x else if i = 1 then v.y else v.z

/-- `CPU_Triangle` from `include/scene/bvh.h`: anchor vertex plus two edges. -/
structure CPU_Triangle where
  v0 : Vec3
  e1 : Vec3
  e2 : Vec3
deriving DecidableEq

instance : Inhabited CPU_Triangle := ⟨⟨default, default, default⟩⟩

/-- `BVHNode` from `include/scene/bvh.h`. -/
structure BVHNode where
  bMin : Vec3
  bMax : Vec3
  left : Int
  right : Int
  first : Int
  count : Int
deriving DecidableEq

instance : Inhabited BVHNode := ⟨⟨default, default, 0, 0, 0, 0⟩⟩

/-- `BVHNode::isLeaf`: `count > 0`. -/
def BVHNode.isLeaf (n : BVHNode) : Prop := n.count > 0

instance (n : BVHNode) : Decidable n.isLeaf := inferInstanceAs (Decidable (_ > _))

/-- `tri_min` from `src/scene/bvh.cpp`. -/
def tri_min (t : CPU_Triangle) : Vec3 :=
  vmin t.v0 (vmin (t.v0 + t.e1) (t.v0 + t.e2))

/-- `tri_max` from `src/scene/bvh.cpp`. -/
def tri_max (t : CPU_Triangle) : Vec3 :=
  vmax t.v0 (vmax (t.v0 + t.e1) (t.v0 + t.e2))

/-- `tri_centroid` from `src/scene/bvh.cpp`. -/
def tri_centroid (t : CPU_Triangle) : Vec3 :=
  vscale (t.v0 + (t.v0 + t.e1) + (t.v0 + t.e2)) (1 / 3)

/-- `BuildRef` from `src/scene/bvh.cpp`: triangle index plus cached centroid. -/
structure BuildRef where
  triIndex : Int
  c : Vec3
deriving DecidableEq

instance : Inhabited BuildRef := ⟨⟨0, default⟩⟩

/-- The `1e30f` sentinel used to seed bounding-box folds. -/
def bigF : ℚ := 10 ^ 30

/-- Triangle fetched through a build reference: `tris[refs[i].triIndex]`. -/
def refTri (tris : List CPU_Triangle) (r : BuildRef) : CPU_Triangle :=
  tris.getD r.triIndex.toNat default

/-- Bounding box of `tris[refs[i].triIndex]` for `i ∈ [b, e)` — the fold at the
top of `build_recursive`. -/
def rangeBox (tris : List CPU_Triangle) (refs : List BuildRef) (b e : Nat) :
    Vec3 × Vec3 :=
  (((refs.drop b).take (e - b)).foldl
    (fun acc r =>
      (vmin acc.1 (tri_min (refTri tris r)), vmax acc.2 (tri_max (refTri tris r))))
    (⟨bigF, bigF, bigF⟩, ⟨-bigF, -bigF, -bigF⟩))

/-- Split-axis choice: largest extent of the node bounding box. -/
def pickAxis (bMin bMax : Vec3) : Nat :=
  let e : Vec3 := bMax - bMin
  if e.x > e.y then (if e.x > e.z then 0 else 2) else (if e.y > e.z then 1 else 2)

/-- Stable insertion of one element w.r.t. a boolean `≤`-test. -/
def insertRef {α : Type} (le : α → α → Bool) (a : α) : List α → List α
  | [] => [a]
  | b :: l => if le a b then a :: b :: l else b :: insertRef le a l

/-- Stable insertion sort w.r.t. a boolean `≤`-test. -/
def sortRefs {α : Type} (le : α → α → Bool) : List α → List α
  | [] => []
  | a :: l => insertRef le a (sortRefs le l)

/-- Model of `std::nth_element(refs.begin()+b, refs.begin()+mid, refs.begin()+e, cmp)`
with `cmp = (a.c[axis] < b.c[axis])`: the subrange `[b, e)` is stably sorted by
the centroid key (an admissible realisation of the `nth_element` postcondition);
elements outside the subrange are untouched. -/
def nthElementRange (refs : List BuildRef) (b e : Nat) (axis : Nat) :
    List BuildRef :=
  refs.take b ++
    sortRefs (fun r s => r.c.nth axis ≤ s.c.nth axis) ((refs.drop b).take (e - b)) ++
    refs.drop e

/-- Positional median used by `build_recursive`: `(begin + end) / 2`. -/
def splitMid (b e : Nat) : Nat := (b + e) / 2

/-- `build_recursive` from `src/scene/bvh.cpp`, fuel-indexed.  Returns the
grown node list, the permuted reference list, and the index of the produced
node (`myIndex`).  With `fuel ≥ e - b` the fuel never runs out
(`build_recursive_fuel_irrelevant`). -/
def build_recursive (fuel : Nat) (leafMax : Nat) (tris : List CPU_Triangle)
    (nodes : List BVHNode) (refs : List BuildRef) (b e : Nat) :
    List BVHNode × List BuildRef × Nat :=
  match fuel with
  | 0 => (nodes, refs, 0)
  | fuel + 1 =>
    let box := rangeBox tris refs b e
    let count := e - b
    let myIndex := nodes.length
    if count ≤ leafMax then
      (nodes ++ [⟨box.1, box.2, -1, -1, (b : Int), (count : Int)⟩], refs, myIndex)
    else
      let axis := pickAxis box.1 box.2
      let refs1 := nthElementRange refs b e axis
      let mid := splitMid b e
      let l := build_recursive fuel leafMax tris
        (nodes ++ [⟨box.1, box.2, 0, 0, 0, 0⟩]) refs1 b mid
      let r := build_recursive fuel leafMax tris l.1 l.2.1 mid e
      (r.1.set myIndex ⟨box.1, box.2, (l.2.2 : Int), (r.2.2 : Int), -1, 0⟩,
        r.2.1, myIndex)

/-- The leaf-reorder DFS at the bottom of `build_bvh`, fuel-indexed.  The
stack is a list with its head as `stack.back()`; popping an internal node
pushes `left` then `right` (so the right child is processed first), popping a
leaf appends its triangles to `remapped` and patches the leaf's `first` to the
new base. -/
def remapGo (fuel : Nat) (tris : List CPU_Triangle) (refs : List BuildRef)
    (nodes : List BVHNode) (stack : List Nat) (remapped : List CPU_Triangle) :
    List BVHNode × List CPU_Triangle :=
  match fuel with
  | 0 => (nodes, remapped)
  | fuel + 1 =>
    match stack with
    | [] => (nodes, remapped)
    | n :: rest =>
      let node := nodes.getD n default
      if node.isLeaf then
        let slice := (List.range node.count.toNat).map
          (fun i => refTri tris (refs.getD (node.first.toNat + i) default))
        let remapped1 := remapped ++ slice
        let base := remapped1.length - node.count.toNat
        remapGo fuel tris refs (nodes.set n { node with first := (base : Int) })
          rest remapped1
      else
        remapGo fuel tris refs nodes
          (node.right.toNat :: node.left.toNat :: rest) remapped

/-- `build_bvh` from `src/scene/bvh.cpp`.  Returns the flattened node list
together with the reordered triangle list (the C++ version reorders `tris`
in place). -/
def build_bvh (tris : List CPU_Triangle) :
    List BVHNode × List CPU_Triangle :=
  if tris = [] then ([], tris)
  else
    let refs := (List.range tris.length).map
      (fun (i : Nat) => BuildRef.mk (i : Int) (tri_centroid (tris.getD i default)))
    let built := build_recursive tris.length 8 tris [] refs 0 tris.length
    let rm := remapGo (2 * built.1.length + 1) tris built.2.1 built.1 [built.2.2] []
    (rm.1, rm.2)

/-! ## glm 4-component types and the model transform -/

/-- Rational 4-vector standing in for `glm::vec4`. -/
structure Vec4 where
  x : ℚ
  y : ℚ
  z : ℚ
  w : ℚ
deriving DecidableEq

/-- Column-major 4×4 matrix standing in for `glm::mat4`. -/
structure Mat4 where
  c0 : Vec4
  c1 : Vec4
  c2 : Vec4
  c3 : Vec4
deriving DecidableEq

/-- `M * v` for a column-major matrix, as glm computes it. -/
def Mat4.mulVec (m : Mat4) (v : Vec4) : Vec4 :=
  ⟨m.c0.x * v.x + m.c1.x * v.y + m.c2.x * v.z + m.c3.x * v.w,
   m.c0.y * v.x + m.c1.y * v.y + m.c2.y * v.z + m.c3.y * v.w,
   m.c0.z * v.x + m.c1.z * v.y + m.c2.z * v.z + m.c3.z * v.w,
   m.c0.w * v.x + m.c1.w * v.y + m.c2.w * v.z + m.c3.w * v.w⟩

/-- `glm::vec3(M * glm::vec4(p, 1.0f))`: transform a position and drop `w`. -/
def xformPoint (m : Mat4) (p : Vec3) : Vec3 :=
  let r := m.mulVec ⟨p.x, p.y, p.z, 1⟩
  ⟨r.x, r.y, r.z⟩

/-! ## Model geometry (external loader's output format) -/

/-- A mesh vertex; only `Position` is consumed by this core. -/
structure Vertex where
  Position : Vec3
deriving DecidableEq

/-- A `Mesh` in the LearnOpenGL layout assumed by `gather_model_triangles`. -/
structure Mesh where
  vertices : List Vertex
  indices : List Nat
deriving DecidableEq

instance : Inhabited Vertex := ⟨⟨default⟩⟩

/-- A loaded `Model`: the list of meshes.  File parsing itself is external
I/O and out of scope; a `Model` value is the loader's result. -/
structure Model where
  meshes : List Mesh
deriving DecidableEq

/-- One triangle record built from the index triple starting at `k`, exactly
as the loop body of `gather_model_triangles` does. -/
def meshTriAt (M : Mat4) (V : List Vertex) (I : List Nat) (k : Nat) :
    CPU_Triangle :=
  let p0 := xformPoint M ((V.getD (I.getD k 0) default).Position)
  let p1 := xformPoint M ((V.getD (I.getD (k + 1) 0) default).Position)
  let p2 := xformPoint M ((V.getD (I.getD (k + 2) 0) default).Position)
  { v0 := p0, e1 := p1 - p0, e2 := p2 - p0 }

/-- The `for (k = 0; k + 2 < I.size(); k += 3)` walk of one mesh,
fuel-indexed (fuel `≥ I.length - k` suffices). -/
def gatherMeshGo (M : Mat4) (V : List Vertex) (I : List Nat)
    (fuel k : Nat) (acc : List CPU_Triangle) : List CPU_Triangle :=
  match fuel with
  | 0 => acc
  | fuel + 1 =>
    if k + 2 < I.length then
      gatherMeshGo M V I fuel (k + 3) (acc ++ [meshTriAt M V I k])
    else acc

/-- `gather_model_triangles` from `src/scene/bvh.cpp`: walks every mesh's
index triples, transforming positions by `M` and appending to `outTris`. -/
def gather_model_triangles (model : Model) (M : Mat4)
    (outTris : List CPU_Triangle) : List CPU_Triangle :=
  model.meshes.foldl
    (fun acc mesh => gatherMeshGo M mesh.vertices mesh.indices
      mesh.indices.length 0 acc)
    outTris

/-! ## BVH GPU residency (`BVHHandle`, upload, rebuild) -/

/-- `BVHHandle` from `include/scene/bvh.h`: the four GL object names.
GL names are modelled as `Nat`, `0` meaning "not created". -/
structure BVHHandle where
  nodeTex : Nat := 0
  nodeBuf : Nat := 0
  triTex : Nat := 0
  triBuf : Nat := 0
deriving DecidableEq

/-- `BVHHandle::release`: deletes whichever objects exist and nulls the
fields.  (The guarded `glDelete*` calls only touch GL server state; the
observable effect on the handle is that every field becomes 0.) -/
def BVHHandle.release (_h : BVHHandle) : BVHHandle :=
  { nodeTex := 0, nodeBuf := 0, triTex := 0, triBuf := 0 }

/-- `upload_bvh_tbo`: serializes nodes/triangles into TBOs.  Buffer contents
live GL-side and are not modelled; what is modelled is the name management:
each of the four objects is generated fresh (from the `nextId` counter) iff
its field is currently 0, in the textual order of the C++ function
(`nodeBuf`, `nodeTex`, `triBuf`, `triTex`). -/
def upload_bvh_tbo (_nodes : List BVHNode) (_tris : List CPU_Triangle)
    (h : BVHHandle) (nextId : Nat) : BVHHandle × Nat :=
  let p1 := if h.nodeBuf = 0 then (nextId, nextId + 1) else (h.nodeBuf, nextId)
  let p2 := if h.nodeTex = 0 then (p1.2, p1.2 + 1) else (h.nodeTex, p1.2)
  let p3 := if h.triBuf = 0 then (p2.2, p2.2 + 1) else (h.triBuf, p2.2)
  let p4 := if h.triTex = 0 then (p3.2, p3.2 + 1) else (h.triTex, p3.2)
  ({ nodeBuf := p1.1, nodeTex := p2.1, triBuf := p3.1, triTex := p4.1 }, p4.2)

/-- The caller-visible state threaded through `rebuild_bvh_from_model_path`:
the resident model, the node/tri counters, the GPU handle, and the GL
fresh-name counter. -/
structure RebuildState where
  bvhModel : Option Model
  outNodeCount : Int
  outTriCount : Int
  handle : BVHHandle
  nextId : Nat
deriving DecidableEq

/-- `rebuild_bvh_from_model_path` from `src/scene/bvh.cpp`.  Loading
`Model(path)` is external file I/O; its result is passed in as `loaded`
(the constructor always yields an object, and the function's own failure
test is `meshes.empty()`).  Mirrors the C++ statement order: the handle is
released FIRST, then the model is replaced, then on success triangles are
gathered, the BVH is built and uploaded. -/
def rebuild_bvh_from_model_path (loaded : Model) (modelTransform : Mat4)
    (st : RebuildState) : Bool × RebuildState :=
  let h0 := st.handle.release
  if loaded.meshes = [] then
    (false, { st with bvhModel := none, outNodeCount := 0, outTriCount := 0,
                      handle := h0 })
  else
    let triCPU := gather_model_triangles loaded modelTransform []
    let built := build_bvh triCPU
    let up := upload_bvh_tbo built.1 built.2 h0 st.nextId
    (true, { bvhModel := some loaded,
             outNodeCount := (built.1.length : Int),
             outTriCount := (built.2.length : Int),
             handle := up.1,
             nextId := up.2 })

/-! ## Temporal accumulation buffer (`rt::Accum`, `src/render/accum.cpp`)

GL texture/FBO names are `Nat` (`0` = not created); `glGenTextures` /
`glGenFramebuffers` draw fresh names from the `nextId` counter.  The
contents of the three textures this class owns are tracked abstractly in
`c0`, `c1`, `cm` (`glTexImage2D(..., nullptr)` yields `uninit`,
`glClearBufferfv` with zeros yields `cleared`, and the external renderer
may deposit arbitrary `frameData`). -/

/-- Abstract contents of one GL texture. -/
inductive TexContent
  | uninit
  | cleared
  | frameData (v : Nat)
deriving DecidableEq

namespace rt

/-- The `rt::Accum` state, plus the GL-side model fields. -/
structure Accum where
  fbo : Nat := 0
  tex0 : Nat := 0
  tex1 : Nat := 0
  motionTex : Nat := 0
  writeIdx : Int := 0
  frameIndex : Int := 0
  width : Int := 0
  height : Int := 0
  c0 : TexContent := .uninit
  c1 : TexContent := .uninit
  cm : TexContent := .uninit
  nextId : Nat := 1
deriving DecidableEq

/-- `tex[i]` array access (out-of-range access is UB in C++; modelled as 0). -/
def Accum.texAt (a : Accum) (i : Int) : Nat :=
  if i = 0 then a.tex0 else if i = 1 then a.tex1 else 0

/-- `readTex()`: `tex[1 - writeIdx]`. -/
def Accum.readTex (a : Accum) : Nat := a.texAt (1 - a.writeIdx)

/-- `writeTex()`: `tex[writeIdx]`. -/
def Accum.writeTex (a : Accum) : Nat := a.texAt a.writeIdx

/-- `swapAfterFrame()`: advance the frame counter and flip the ping-pong
index. -/
def Accum.swapAfterFrame (a : Accum) : Accum :=
  { a with frameIndex := a.frameIndex + 1, writeIdx := 1 - a.writeIdx }

/-- `release()`: delete all owned GL objects and zero the bookkeeping. -/
def Accum.release (a : Accum) : Accum :=
  { a with tex0 := 0, tex1 := 0, motionTex := 0, fbo := 0,
           width := 0, height := 0, writeIdx := 0, frameIndex := 0 }

/-- `clear()`: `glClearBufferfv` on COLOR0 (the current write ping) and
COLOR1 (the motion texture). -/
def Accum.clear (a : Accum) : Accum :=
  if a.writeIdx = 0 then { a with c0 := .cleared, cm := .cleared }
  else if a.writeIdx = 1 then { a with c1 := .cleared, cm := .cleared }
  else { a with cm := .cleared }

/-- `reset()`: rewind `frameIndex` and `writeIdx`, then `clear()`. -/
def Accum.reset (a : Accum) : Accum :=
  Accum.clear { a with frameIndex := 0, writeIdx := 0 }

/-- The guard of `recreate`'s early-out branch: requested size equals the
current size and every buffer already exists. -/
def Accum.sameSizeResident (a : Accum) (w h : Int) : Prop :=
  w = a.width ∧ h = a.height ∧ a.fbo ≠ 0 ∧ a.tex0 ≠ 0 ∧
    a.tex1 ≠ 0 ∧ a.motionTex ≠ 0

instance (a : Accum) (w h : Int) : Decidable (a.sameSizeResident w h) :=
  inferInstanceAs (Decidable (_ ∧ _))

/-- `recreate(w, h)` from `src/render/accum.cpp`: no-op on non-positive
sizes; same size with all buffers resident → `reset()`; otherwise recreate
the textures from scratch, clear both pings and motion, and rewind. -/
def Accum.recreate (w h : Int) (a : Accum) : Accum :=
  if w ≤ 0 ∨ h ≤ 0 then a
  else if a.sameSizeResident w h then
    a.reset
  else
    let fboP := if a.fbo = 0 then (a.nextId, a.nextId + 1) else (a.fbo, a.nextId)
    -- old textures deleted, three fresh names allocated by createAccumTex /
    -- createRG16F; glTexImage2D(nullptr) leaves contents uninitialized
    let a1 : Accum :=
      { a with fbo := fboP.1, tex0 := fboP.2, tex1 := fboP.2 + 1,
               motionTex := fboP.2 + 2, width := w, height := h,
               c0 := .uninit, c1 := .uninit, cm := .uninit,
               nextId := fboP.2 + 3 }
    -- bootstrap: clear current write ping + motion
    let a2 := a1.clear
    -- clear the other ping as well
    let a3 := a2.swapAfterFrame
    let a4 := a3.clear
    { a4 with writeIdx := 0, frameIndex := 0 }

/-- `N` consecutive `swapAfterFrame()` calls. -/
def Accum.swapIter : Nat → Accum → Accum
  | 0, a => a
  | n + 1, a => Accum.swapIter n a.swapAfterFrame

end rt

/-! ## Tunable render parameters and the frame-to-frame change detector -/

/-- `float[3]` parameter triple (e.g. a colour). -/
structure F3 where
  a0 : ℚ
  a1 : ℚ
  a2 : ℚ
deriving DecidableEq

/-- `RenderParams` from `include/render/RenderParams.h`, with the header's
default values.  C++ `int` fields stay `Int`, `float` fields become `ℚ`. -/
structure RenderParams where
  sppPerFrame : Int := 1
  exposure : ℚ := 1.0
  matAlbedoColor : F3 := ⟨0.85, 0.25, 0.25⟩
  matAlbedoSpecStrength : ℚ := 0.35
  matAlbedoGloss : ℚ := 48.0
  matGlassEnabled : Int := 1
  matGlassColor : F3 := ⟨0.95, 0.98, 1.0⟩
  matGlassIOR : ℚ := 1.5
  matGlassDistortion : ℚ := 0.05
  matMirrorEnabled : Int := 1
  matMirrorColor : F3 := ⟨1.0, 1.0, 1.0⟩
  matMirrorGloss : ℚ := 256.0
  enableJitter : Int := 1
  jitterStillScale : ℚ := 0.25
  jitterMovingScale : ℚ := 0.5
  enableGI : Int := 1
  giScaleAnalytic : ℚ := 0.35
  giScaleBVH : ℚ := 0.20
  enableEnvMap : Int := 1
  envMapIntensity : ℚ := 1.0
  sunEnabled : Int := 1
  sunColor : F3 := ⟨1.0, 0.95, 0.85⟩
  sunIntensity : ℚ := 0.45
  sunYaw : ℚ := 45.0
  sunPitch : ℚ := -35.0
  skyEnabled : Int := 1
  skyColor : F3 := ⟨0.4, 0.5, 1.0⟩
  skyIntensity : ℚ := 1.0
  skyYaw : ℚ := 0.0
  skyPitch : ℚ := 90.0
  pointLightEnabled : Int := 1
  pointLightColor : F3 := ⟨1.0, 0.9, 0.7⟩
  pointLightIntensity : ℚ := 20.0
  pointLightPos : F3 := ⟨0.0, 2.5, -3.0⟩
  pointLightOrbitEnabled : Int := 0
  pointLightOrbitRadius : ℚ := 3.5
  pointLightOrbitSpeed : ℚ := 20.0
  pointLightYaw : ℚ := 0.0
  pointLightPitch : ℚ := 0.0
  enableAO : Int := 1
  aoSamples : Int := 4
  aoRadius : ℚ := 0.8
  aoBias : ℚ := 0.002
  aoMin : ℚ := 0.5
  enableTAA : Int := 1
  taaStillThresh : ℚ := 0.00001
  taaHardMovingThresh : ℚ := 0.35
  taaHistoryMinWeight : ℚ := 0.85
  taaHistoryAvgWeight : ℚ := 0.92
  taaHistoryMaxWeight : ℚ := 0.96
  taaHistoryBoxSize : ℚ := 0.06
  enableSVGF : Int := 1
  svgfVarMax : ℚ := 0.02
  svgfKVar : ℚ := 200.0
  svgfKColor : ℚ := 20.0
  svgfKVarMotion : ℚ := 35.0
  svgfKColorMotion : ℚ := 3.0
  svgfStrength : ℚ := 0.6
  svgfVarEPS : ℚ := 0.0002
  svgfMotionEPS : ℚ := 0.005
  motionScale : ℚ := 4.0
deriving DecidableEq

namespace app_detail

/-- The float-drift test used by `paramsChanged`:
`std::fabs(x - y) > 1e-5f`. -/
def diffB (x y : ℚ) : Bool := decide (|x - y| > 0.00001)

/-- `F3` drift: any of the three components drifts. -/
def diff3 (x y : F3) : Bool := diffB x.a0 y.a0 || diffB x.a1 y.a1 || diffB x.a2 y.a2

/-- `app_detail::paramsChanged` from `src/app/application.cpp`, comparing
the two parameter sets field by field in the source's order (the chain of
early-return `if`s is the boolean disjunction of the individual tests). -/
def paramsChanged (a b : RenderParams) : Bool :=
  decide (a.sppPerFrame ≠ b.sppPerFrame) ||
  decide (a.enableGI ≠ b.enableGI) ||
  decide (a.enableAO ≠ b.enableAO) ||
  decide (a.enableTAA ≠ b.enableTAA) ||
  decide (a.enableSVGF ≠ b.enableSVGF) ||
  decide (a.aoSamples ≠ b.aoSamples) ||
  decide (a.enableEnvMap ≠ b.enableEnvMap) ||
  decide (a.enableJitter ≠ b.enableJitter) ||
  diff3 a.matAlbedoColor b.matAlbedoColor ||
  diffB a.matAlbedoSpecStrength b.matAlbedoSpecStrength ||
  diffB a.matAlbedoGloss b.matAlbedoGloss ||
  decide (a.matGlassEnabled ≠ b.matGlassEnabled) ||
  diff3 a.matGlassColor b.matGlassColor ||
  diffB a.matGlassIOR b.matGlassIOR ||
  diffB a.matGlassDistortion b.matGlassDistortion ||
  decide (a.matMirrorEnabled ≠ b.matMirrorEnabled) ||
  diff3 a.matMirrorColor b.matMirrorColor ||
  diffB a.matMirrorGloss b.matMirrorGloss ||
  diffB a.envMapIntensity b.envMapIntensity ||
  diffB a.jitterStillScale b.jitterStillScale ||
  diffB a.jitterMovingScale b.jitterMovingScale ||
  diffB a.giScaleAnalytic b.giScaleAnalytic ||
  diffB a.giScaleBVH b.giScaleBVH ||
  diffB a.aoRadius b.aoRadius ||
  diffB a.aoBias b.aoBias ||
  diffB a.aoMin b.aoMin ||
  diffB a.taaStillThresh b.taaStillThresh ||
  diffB a.taaHardMovingThresh b.taaHardMovingThresh ||
  diffB a.taaHistoryMinWeight b.taaHistoryMinWeight ||
  diffB a.taaHistoryAvgWeight b.taaHistoryAvgWeight ||
  diffB a.taaHistoryMaxWeight b.taaHistoryMaxWeight ||
  diffB a.taaHistoryBoxSize b.taaHistoryBoxSize ||
  diffB a.svgfStrength b.svgfStrength ||
  diffB a.svgfVarMax b.svgfVarMax ||
  diffB a.svgfKVar b.svgfKVar ||
  diffB a.svgfKColor b.svgfKColor ||
  diffB a.svgfKVarMotion b.svgfKVarMotion ||
  diffB a.svgfKColorMotion b.svgfKColorMotion ||
  diffB a.svgfVarEPS b.svgfVarEPS ||
  diffB a.svgfMotionEPS b.svgfMotionEPS ||
  decide (a.sunEnabled ≠ b.sunEnabled) ||
  diff3 a.sunColor b.sunColor ||
  diffB a.sunIntensity b.sunIntensity ||
  diffB a.sunYaw b.sunYaw ||
  diffB a.sunPitch b.sunPitch ||
  decide (a.skyEnabled ≠ b.skyEnabled) ||
  diff3 a.skyColor b.skyColor ||
  diffB a.skyIntensity b.skyIntensity ||
  diffB a.skyYaw b.skyYaw ||
  diffB a.skyPitch b.skyPitch ||
  decide (a.pointLightEnabled ≠ b.pointLightEnabled) ||
  diff3 a.pointLightColor b.pointLightColor ||
  diffB a.pointLightIntensity b.pointLightIntensity ||
  diff3 a.pointLightPos b.pointLightPos ||
  decide (a.pointLightOrbitEnabled ≠ b.pointLightOrbitEnabled) ||
  diffB a.pointLightOrbitRadius b.pointLightOrbitRadius ||
  diffB a.pointLightOrbitSpeed b.pointLightOrbitSpeed ||
  diffB a.pointLightYaw b.pointLightYaw ||
  diffB a.pointLightPitch b.pointLightPitch

end app_detail

/-- One compared value: an `int` field or a `float` field. -/
inductive PValue
  | i (v : Int)
  | f (v : ℚ)
deriving DecidableEq

/-- The values `paramsChanged` actually compares, in its comparison order
(each `float[3]` contributes its three components).  The `exposure` and
`motionScale` fields of `RenderParams` do NOT appear here. -/
def comparedValues (p : RenderParams) : List PValue :=
  [.i p.sppPerFrame, .i p.enableGI, .i p.enableAO, .i p.enableTAA,
   .i p.enableSVGF, .i p.aoSamples, .i p.enableEnvMap, .i p.enableJitter,
   .f p.matAlbedoColor.a0, .f p.matAlbedoColor.a1, .f p.matAlbedoColor.a2,
   .f p.matAlbedoSpecStrength, .f p.matAlbedoGloss,
   .i p.matGlassEnabled,
   .f p.matGlassColor.a0, .f p.matGlassColor.a1, .f p.matGlassColor.a2,
   .f p.matGlassIOR, .f p.matGlassDistortion,
   .i p.matMirrorEnabled,
   .f p.matMirrorColor.a0, .f p.matMirrorColor.a1, .f p.matMirrorColor.a2,
   .f p.matMirrorGloss,
   .f p.envMapIntensity, .f p.jitterStillScale, .f p.jitterMovingScale,
   .f p.giScaleAnalytic, .f p.giScaleBVH,
   .f p.aoRadius, .f p.aoBias, .f p.aoMin,
   .f p.taaStillThresh, .f p.taaHardMovingThresh, .f p.taaHistoryMinWeight,
   .f p.taaHistoryAvgWeight, .f p.taaHistoryMaxWeight, .f p.taaHistoryBoxSize,
   .f p.svgfStrength, .f p.svgfVarMax, .f p.svgfKVar, .f p.svgfKColor,
   .f p.svgfKVarMotion, .f p.svgfKColorMotion, .f p.svgfVarEPS,
   .f p.svgfMotionEPS,
   .i p.sunEnabled,
   .f p.sunColor.a0, .f p.sunColor.a1, .f p.sunColor.a2,
   .f p.sunIntensity, .f p.sunYaw, .f p.sunPitch,
   .i p.skyEnabled,
   .f p.skyColor.a0, .f p.skyColor.a1, .f p.skyColor.a2,
   .f p.skyIntensity, .f p.skyYaw, .f p.skyPitch,
   .i p.pointLightEnabled,
   .f p.pointLightColor.a0, .f p.pointLightColor.a1, .f p.pointLightColor.a2,
   .f p.pointLightIntensity,
   .f p.pointLightPos.a0, .f p.pointLightPos.a1, .f p.pointLightPos.a2,
   .i p.pointLightOrbitEnabled,
   .f p.pointLightOrbitRadius, .f p.pointLightOrbitSpeed,
   .f p.pointLightYaw, .f p.pointLightPitch]

/-- Mismatch of one compared pair: `int`s differ, or floats drift beyond
the epsilon. -/
def pvMismatch : PValue × PValue → Bool
  | (.i x, .i y) => decide (x ≠ y)
  | (.f x, .f y) => app_detail.diffB x y
  | _ => false

/-- `guiChangedMode` in `Application::mainLoop`: any of the three mode
flags flipped between the pre-GUI snapshot and the post-GUI state. -/
def guiChangedMode (prevRay curRay prevBVH curBVH prevMotion curMotion : Bool) :
    Bool :=
  (curRay != prevRay) || (curBVH != prevBVH) || (curMotion != prevMotion)

/-- `dynamicPointLightMoving` in `Application::mainLoop`. -/
def dynamicPointLightMoving (rayMode : Bool) (p : RenderParams) : Bool :=
  rayMode && decide (p.pointLightOrbitEnabled ≠ 0) &&
    decide (|p.pointLightOrbitSpeed| > 0.00001) &&
    decide (p.pointLightOrbitRadius > 0)

/-- The end-of-frame history-invalidation decision of `Application::mainLoop`
(step 8): `accum.reset()` is issued iff this is true. -/
def accumResetDecision (prevRay curRay prevBVH curBVH prevMotion curMotion : Bool)
    (curParams prevGuiParams : RenderParams)
    (cameraChangedFromZoom : Bool) : Bool :=
  guiChangedMode prevRay curRay prevBVH curBVH prevMotion curMotion ||
  app_detail.paramsChanged curParams prevGuiParams ||
  cameraChangedFromZoom ||
  dynamicPointLightMoving curRay curParams

/-! ## Auxiliary notions used by the verification -/

/-- Node lookup with the zero node as default (`nodes[i]`). -/
def getN (nodes : List BVHNode) (i : Nat) : BVHNode := nodes.getD i default

/-- The data-independent structural fields of a node: everything except the
bounding box. -/
def nodeShape (n : BVHNode) : Int × Int × Int × Int :=
  (n.left, n.right, n.first, n.count)

/-- Well-formed subtree of the flattened node array, as produced by
`build_recursive`:  `WFT lm nodes i j b e` says the node at index `i` roots
a subtree occupying EXACTLY the index range `[i, j)` of `nodes`, whose leaf
ranges tile the reference range `[b, e)`.  The left child of an internal
node is always at `i + 1` (it is allocated immediately after its parent). -/
inductive WFT (lm : Nat) (nodes : List BVHNode) : Nat → Nat → Nat → Nat → Prop
  | leaf (i b e : Nat) :
      i < nodes.length → b < e → e - b ≤ lm →
      (getN nodes i).left = -1 → (getN nodes i).right = -1 →
      (getN nodes i).first = (b : Int) → (getN nodes i).count = ((e - b : Nat) : Int) →
      WFT lm nodes i (i + 1) b e
  | internal (i k j b m e : Nat) :
      i < nodes.length →
      (getN nodes i).count = 0 →
      (getN nodes i).left = ((i + 1 : Nat) : Int) →
      (getN nodes i).right = ((k : Nat) : Int) →
      WFT lm nodes (i + 1) k b m →
      WFT lm nodes k j m e →
      WFT lm nodes i j b e

/-! Concrete inputs used by witnesses and counterexamples. -/

/-- A single unit triangle. -/
def triUnit : CPU_Triangle := ⟨⟨0, 0, 0⟩, ⟨1, 0, 0⟩, ⟨0, 1, 0⟩⟩

/-- Nine identical triangles: every centroid coincides on every axis (the
degenerate case of claim C4). -/
def colocated9 : List CPU_Triangle := List.replicate 9 triUnit

/-- Triangle number `h` of the tie family: x-extent `[-1, 1]`, apex height
`h/16`; all members share centroid `x = 0`. -/
def tieTri (h : Nat) : CPU_Triangle :=
  { v0 := ⟨-1, 0, 0⟩, e1 := ⟨2, 0, 0⟩, e2 := ⟨1, (h : ℚ) / 16, 0⟩ }

/-- Nine tie-family triangles with pairwise different apex heights; the
split axis is x and every centroid ties there. -/
def tieTris9 : List CPU_Triangle := (List.range 9).map (fun i => tieTri (i + 1))

/-- The identity model transform. -/
def idMat4 : Mat4 :=
  ⟨⟨1, 0, 0, 0⟩, ⟨0, 1, 0, 0⟩, ⟨0, 0, 1, 0⟩, ⟨0, 0, 0, 1⟩⟩

/-- A model whose load "failed": no meshes (the failure test of
`rebuild_bvh_from_model_path`). -/
def emptyModel : Model := ⟨[]⟩

/-- A one-mesh model: a quad (two triangles) plus two trailing indices that
do not form a complete triple. -/
def quadModelTrailing : Model :=
  ⟨[{ vertices := [⟨⟨0, 0, 0⟩⟩, ⟨⟨1, 0, 0⟩⟩, ⟨⟨1, 1, 0⟩⟩, ⟨⟨0, 1, 0⟩⟩],
      indices := [0, 1, 2, 0, 2, 3, 1, 3] }]⟩

/-- A rebuild-state with a resident BVH installed (non-null handle, counts,
a model). -/
def stResident : RebuildState :=
  { bvhModel := some quadModelTrailing, outNodeCount := 5, outTriCount := 9,
    handle := { nodeTex := 1, nodeBuf := 2, triTex := 3, triBuf := 4 },
    nextId := 10 }

/-- An accumulation state as left by a successful `recreate(4, 3)` followed
by external rendering into both pings (`frameData`). -/
def accumBusy : rt.Accum :=
  { fbo := 1, tex0 := 2, tex1 := 3, motionTex := 4, writeIdx := 0,
    frameIndex := 7, width := 4, height := 3,
    c0 := .frameData 21, c1 := .frameData 22, cm := .frameData 23,
    nextId := 5 }

/-- Contiguous subrange `[b, e)` of a list. -/
def sliceL {α : Type} (l : List α) (b e : Nat) : List α :=
  (l.drop b).take (e - b)

/-- The triangles referenced by the subrange `[b, e)` of `refs`. -/
def sliceMap (tris : List CPU_Triangle) (refs : List BuildRef) (b e : Nat) :
    List CPU_Triangle :=
  (sliceL refs b e).map (refTri tris)


/-! # Theorems -/

/-! ## Resource teardown and rebuild ordering -/

/-- C9: teardown of resident resources is idempotent: for every state —
including partially initialized ones where some handles are 0 —
`BVHHandle::release` and `Accum::release` compose idempotently
(release after release equals release). -/
theorem release_release_eq_release :
    (∀ h : BVHHandle, h.release.release = h.release) ∧
    (∀ a : rt.Accum, a.release.release = a.release) := by
  constructor
  · intro h
    rfl
  · intro a
    rfl

/-- C1 (counterexample): `rebuild_bvh_from_model_path` releases the old
handle BEFORE attempting the rebuild, so a failing load (model with no
meshes) returns `false` with the previously resident BVH destroyed: the
handle is zeroed and the model cleared, not left intact. -/
theorem rebuild_failure_not_intact :
    (rebuild_bvh_from_model_path emptyModel idMat4 stResident).1 = false ∧
    (rebuild_bvh_from_model_path emptyModel idMat4 stResident).2.handle ≠
      stResident.handle ∧
    (rebuild_bvh_from_model_path emptyModel idMat4 stResident).2.bvhModel ≠
      stResident.bvhModel := by
  refine ⟨rfl, ?_, ?_⟩ <;> decide

/-- C1 (amended): the resident handle is released at the START of every
rebuild.  Consequently (a) a failed rebuild (no meshes) returns `false`
with the handle fully released, the model reset and the counters zeroed —
the previous structure is NOT preserved; and (b) the outcome's handle never
depends on the previously installed handle. -/
theorem rebuild_releases_first (loaded : Model) (Mt : Mat4)
    (st : RebuildState) (hfail : loaded.meshes = []) :
    rebuild_bvh_from_model_path loaded Mt st =
      (false,
        { st with
          bvhModel := none
          outNodeCount := 0
          outTriCount := 0
          handle := ⟨0, 0, 0, 0⟩ }) ∧
    (∀ (l2 : Model) (s1 s2 : RebuildState), s1.nextId = s2.nextId →
      (rebuild_bvh_from_model_path l2 Mt s1).2.handle =
        (rebuild_bvh_from_model_path l2 Mt s2).2.handle) := by
  constructor
  · simp [rebuild_bvh_from_model_path, hfail, BVHHandle.release]
  · intro l2 s1 s2 hn
    by_cases hm : l2.meshes = [] <;>
      simp [rebuild_bvh_from_model_path, hm, BVHHandle.release, hn]

/-- C1 (witness for `rebuild_releases_first`). -/
theorem rebuild_releases_first_witness :
    rebuild_bvh_from_model_path emptyModel idMat4 stResident =
      (false,
        { stResident with
          bvhModel := none
          outNodeCount := 0
          outTriCount := 0
          handle := ⟨0, 0, 0, 0⟩ }) :=
  (rebuild_releases_first emptyModel idMat4 stResident rfl).1

/-! ## Accumulation buffer -/

/-- C6: a same-size `recreate(w, h)` with all buffers resident behaves
exactly as `reset()`: it rewinds `frameIndex` and `writeIdx` to 0 and
clears, while every handle field, the size, and the GL allocation counter
are left untouched (nothing is released or reallocated). -/
theorem recreate_same_size_is_reset (a : rt.Accum) (w h : Int)
    (hw : 0 < w) (hh : 0 < h) (hss : a.sameSizeResident w h) :
    rt.Accum.recreate w h a = a.reset ∧
    a.reset.fbo = a.fbo ∧ a.reset.tex0 = a.tex0 ∧ a.reset.tex1 = a.tex1 ∧
    a.reset.motionTex = a.motionTex ∧ a.reset.width = a.width ∧
    a.reset.height = a.height ∧ a.reset.nextId = a.nextId ∧
    a.reset.frameIndex = 0 ∧ a.reset.writeIdx = 0 := by
  have hno : ¬(w ≤ 0 ∨ h ≤ 0) := by omega
  refine ⟨?_, ?_, ?_, ?_, ?_, ?_, ?_, ?_, ?_, ?_⟩ <;>
    simp [rt.Accum.recreate, rt.Accum.reset, rt.Accum.clear, hno, hss]

/-- C6 (witness for `recreate_same_size_is_reset`). -/
theorem recreate_same_size_is_reset_witness :
    rt.Accum.recreate 4 3 accumBusy = accumBusy.reset ∧
    accumBusy.reset.tex0 = accumBusy.tex0 ∧
    accumBusy.reset.nextId = accumBusy.nextId := by
  have h := recreate_same_size_is_reset accumBusy 4 3 (by decide) (by decide)
    (by decide)
  exact ⟨h.1, h.2.2.1, h.2.2.2.2.2.2.2.1⟩

/-- C7 (counterexample): after the completed call `recreate(4, 3)` on a
same-size resident state whose read ping holds frame data, the read ping is
NOT cleared (only the write ping and the motion buffer are), contradicting
"both ping-pong buffers … have been cleared". -/
theorem recreate_does_not_clear_read_ping :
    (rt.Accum.recreate 4 3 accumBusy).frameIndex = 0 ∧
    (rt.Accum.recreate 4 3 accumBusy).c1 = .frameData 22 ∧
    (rt.Accum.recreate 4 3 accumBusy).c1 ≠ .cleared := by
  refine ⟨?_, ?_, ?_⟩ <;> decide

/-- C7 (amended): after every completed `recreate(w, h)` with positive
sizes, from a state whose ping index is in range and whose resident ping
textures are distinct: `frameIndex = 0`, `writeIdx = 0`, and
`readTex() ≠ writeTex()`.  On the reallocation path both pings and the
motion buffer are cleared; on the same-size path only the (new) write ping
and the motion buffer are cleared while the read ping keeps its contents. -/
theorem recreate_postconditions (a : rt.Accum) (w h : Int)
    (hw : 0 < w) (hh : 0 < h)
    (hwi : a.writeIdx = 0 ∨ a.writeIdx = 1)
    (htex : a.tex0 ≠ 0 → a.tex1 ≠ 0 → a.tex0 ≠ a.tex1) :
    (rt.Accum.recreate w h a).frameIndex = 0 ∧
    (rt.Accum.recreate w h a).writeIdx = 0 ∧
    (rt.Accum.recreate w h a).readTex ≠ (rt.Accum.recreate w h a).writeTex ∧
    (¬a.sameSizeResident w h →
      (rt.Accum.recreate w h a).c0 = .cleared ∧
      (rt.Accum.recreate w h a).c1 = .cleared ∧
      (rt.Accum.recreate w h a).cm = .cleared) ∧
    (a.sameSizeResident w h →
      (rt.Accum.recreate w h a).c0 = .cleared ∧
      (rt.Accum.recreate w h a).cm = .cleared ∧
      (rt.Accum.recreate w h a).c1 = a.c1) := by
  have hno : ¬(w ≤ 0 ∨ h ≤ 0) := by omega
  by_cases hss : a.sameSizeResident w h
  · obtain ⟨-, -, -, ht0, ht1, -⟩ := id hss
    have hne : a.tex0 ≠ a.tex1 := htex ht0 ht1
    have hre : rt.Accum.recreate w h a = a.reset := by
      simp [rt.Accum.recreate, hno, hss]
    rw [hre]
    refine ⟨?_, ?_, ?_, fun hc => absurd hss hc, fun _ => ?_⟩ <;>
      simp [rt.Accum.reset, rt.Accum.clear, rt.Accum.readTex,
        rt.Accum.writeTex, rt.Accum.texAt, Ne.symm hne]
  · by_cases hf : a.fbo = 0 <;>
      rcases hwi with hwi | hwi <;>
      refine ⟨?_, ?_, ?_, fun _ => ?_, fun hc => absurd hc hss⟩ <;>
        simp [rt.Accum.recreate, rt.Accum.clear, hno, hss, hwi, hf,
          rt.Accum.swapAfterFrame, rt.Accum.readTex, rt.Accum.writeTex,
          rt.Accum.texAt]

/-- C7 (witness for `recreate_postconditions`). -/
theorem recreate_postconditions_witness :
    (rt.Accum.recreate 4 3 accumBusy).frameIndex = 0 ∧
    (rt.Accum.recreate 4 3 accumBusy).readTex ≠
      (rt.Accum.recreate 4 3 accumBusy).writeTex := by
  have h := recreate_postconditions accumBusy 4 3 (by decide) (by decide)
    (by decide) (fun _ _ => by decide)
  exact ⟨h.1, h.2.2.1⟩

/-- Helper: effect of `n` consecutive `swapAfterFrame()` calls on the two
counters, from an arbitrary state. -/
theorem swapIter_counters (n : Nat) (a : rt.Accum) :
    (rt.Accum.swapIter n a).frameIndex = a.frameIndex + n ∧
    (rt.Accum.swapIter n a).writeIdx =
      (if n % 2 = 0 then a.writeIdx else 1 - a.writeIdx) := by
  induction n generalizing a with
  | zero => simp [rt.Accum.swapIter]
  | succ n ih =>
    have h := ih a.swapAfterFrame
    rw [rt.Accum.swapIter] at *
    refine ⟨?_, ?_⟩
    · rw [h.1]
      simp [rt.Accum.swapAfterFrame]
      omega
    · rw [h.2]
      rcases Nat.even_or_odd n with he | ho
      · have h0 : n % 2 = 0 := Nat.even_iff.mp he
        have h1 : (n + 1) % 2 = 1 := by omega
        simp [h0, h1, rt.Accum.swapAfterFrame]
      · have h0 : n % 2 = 1 := Nat.odd_iff.mp ho
        have h1 : (n + 1) % 2 = 0 := by omega
        simp [h0, h1, rt.Accum.swapAfterFrame]

/-- C8: from a freshly reset state (`frameIndex = 0`, `writeIdx = 0`),
`N` consecutive `swapAfterFrame()` calls leave `frameIndex = N` and
`writeIdx = N mod 2`; and `swapAfterFrame` is the only operation that
increases `frameIndex` — `reset`, `release` and a completed `recreate`
force it to 0, `clear` leaves it unchanged, and a rejected `recreate`
(non-positive size) is the identity. -/
theorem swap_iteration_and_frame_monotonicity (n : Nat) (a b : rt.Accum)
    (w h : Int) (h0 : a.frameIndex = 0) (h1 : a.writeIdx = 0) :
    (rt.Accum.swapIter n a).frameIndex = (n : Int) ∧
    (rt.Accum.swapIter n a).writeIdx = (n : Int) % 2 ∧
    b.swapAfterFrame.frameIndex = b.frameIndex + 1 ∧
    b.reset.frameIndex = 0 ∧
    b.release.frameIndex = 0 ∧
    b.clear.frameIndex = b.frameIndex ∧
    (0 < w → 0 < h → (rt.Accum.recreate w h b).frameIndex = 0) ∧
    (w ≤ 0 ∨ h ≤ 0 → rt.Accum.recreate w h b = b) := by
  obtain ⟨hf, hwi⟩ := swapIter_counters n a
  refine ⟨?_, ?_, ?_, ?_, ?_, ?_, ?_, ?_⟩
  · rw [hf, h0]
    omega
  · rw [hwi, h1]
    rcases Nat.even_or_odd n with he | ho
    · have h2 : n % 2 = 0 := Nat.even_iff.mp he
      have h3 : (n : Int) % 2 = 0 := by omega
      simp [h2, h3]
    · have h2 : n % 2 = 1 := Nat.odd_iff.mp ho
      have h3 : (n : Int) % 2 = 1 := by omega
      simp [h2, h3]
  · simp [rt.Accum.swapAfterFrame]
  · by_cases hb : b.writeIdx = 0 <;> by_cases hb1 : b.writeIdx = 1 <;>
      simp [rt.Accum.reset, rt.Accum.clear, hb, hb1]
  · simp [rt.Accum.release]
  · by_cases hb : b.writeIdx = 0 <;> by_cases hb1 : b.writeIdx = 1 <;>
      simp [rt.Accum.clear, hb, hb1]
  · intro hwp hhp
    have hno : ¬(w ≤ 0 ∨ h ≤ 0) := by omega
    by_cases hss : b.sameSizeResident w h
    · by_cases hb : b.writeIdx = 0 <;> by_cases hb1 : b.writeIdx = 1 <;>
        simp [rt.Accum.recreate, rt.Accum.reset, rt.Accum.clear, hno, hss,
          hb, hb1]
    · simp [rt.Accum.recreate, hno, hss]
  · intro hle
    simp [rt.Accum.recreate, hle]

/-- C8 (witness for `swap_iteration_and_frame_monotonicity`). -/
theorem swap_iteration_witness :
    (rt.Accum.swapIter 5 accumBusy.reset).frameIndex = 5 ∧
    (rt.Accum.swapIter 5 accumBusy.reset).writeIdx = 1 := by
  have h := swap_iteration_and_frame_monotonicity 5 accumBusy.reset
    accumBusy 4 3 (by decide) (by decide)
  exact ⟨h.1, h.2.1⟩

/-! ## Parameter-change detection -/

/-- Helper: an unchanged float never counts as drift. -/
theorem diffB_self (x : ℚ) : app_detail.diffB x x = false := by
  simp only [app_detail.diffB, sub_self, abs_zero, decide_eq_false_iff_not,
    not_lt]
  decide

/-- C2 (counterexample): `exposure` is a tunable `RenderParams` field, yet
changing it by 1 (far beyond the 1e-5 epsilon) is invisible to
`paramsChanged`, and the end-of-frame decision does not reset the
accumulation buffer. -/
theorem paramsChanged_misses_exposure :
    app_detail.paramsChanged { ({} : RenderParams) with exposure := 2 } {} =
      false ∧
    |({ ({} : RenderParams) with exposure := 2 }).exposure -
        ({} : RenderParams).exposure| > 0.00001 ∧
    accumResetDecision false false false false false false
      { ({} : RenderParams) with exposure := 2 } {} false = false := by
  refine ⟨?_, ?_, ?_⟩ <;> decide

/-- C2 (amended): `paramsChanged` reports dirty exactly when one of the
compared value pairs mismatches (ints by `≠`, floats by drift beyond 1e-5)
— so changing any single compared tunable beyond the epsilon triggers a
reset and sub-epsilon float changes do not; however `exposure` and
`motionScale` are not compared, and changing only them never marks the
parameters dirty; finally, toggling the rendering mode always makes the
end-of-frame decision reset the accumulation buffer. -/
theorem paramsChanged_characterization :
    (∀ a b : RenderParams,
      app_detail.paramsChanged a b =
        (((comparedValues a).zip (comparedValues b)).any pvMismatch)) ∧
    (∀ (p : RenderParams) (x y : ℚ),
      app_detail.paramsChanged { p with exposure := x, motionScale := y } p =
        false) ∧
    (∀ (prevRay prevBVH prevMotion curBVH curMotion zoom : Bool)
      (cur prev : RenderParams),
      accumResetDecision prevRay (!prevRay) prevBVH curBVH prevMotion curMotion
        cur prev zoom = true) := by
  refine ⟨?_, ?_, ?_⟩
  · intro a b
    simp only [comparedValues, List.zip_cons_cons, List.any_cons,
      List.any_nil, List.zip_nil_right, pvMismatch, app_detail.paramsChanged,
      app_detail.diff3, Bool.or_false, Bool.or_assoc]
  · intro p x y
    simp [app_detail.paramsChanged, app_detail.diff3, diffB_self]
  · intro prevRay prevBVH prevMotion curBVH curMotion zoom cur prev
    cases prevRay <;>
      simp [accumResetDecision, guiChangedMode]

/-! ## Triangle extraction -/

/-- Helper: closed form of the per-mesh index-triple walk.  From position
`k`, with enough fuel, the loop appends exactly `(|I| - k) / 3` triangles,
one per complete triple; trailing indices are ignored. -/
theorem gatherMeshGo_closed (M : Mat4) (V : List Vertex) (I : List Nat) :
    ∀ (f k : Nat) (acc : List CPU_Triangle), I.length - k ≤ f →
      gatherMeshGo M V I f k acc =
        acc ++ (List.range ((I.length - k) / 3)).map
          (fun q => meshTriAt M V I (k + 3 * q)) := by
  intro f
  induction f with
  | zero =>
    intro k acc hf
    have hc : ¬(k + 2 < I.length) := by omega
    have h3 : (I.length - k) / 3 = 0 := by omega
    simp [gatherMeshGo, h3]
  | succ f ih =>
    intro k acc hf
    by_cases hc : k + 2 < I.length
    · have hf3 : I.length - (k + 3) ≤ f := by omega
      have h3 : (I.length - k) / 3 = (I.length - (k + 3)) / 3 + 1 := by omega
      rw [gatherMeshGo, if_pos hc, ih (k + 3) (acc ++ [meshTriAt M V I k]) hf3,
        h3, List.range_succ_eq_map, List.map_cons, List.map_map,
        List.append_assoc]
      have harg : ((fun q => meshTriAt M V I (k + 3 * q)) ∘ Nat.succ) =
          (fun q => meshTriAt M V I (k + 3 + 3 * q)) := by
        funext q
        simp only [Function.comp]
        congr 1
        omega
      rw [harg]
      simp
    · have h3 : (I.length - k) / 3 = 0 := by omega
      simp [gatherMeshGo, hc, h3]

/-- C10: `gather_model_triangles` appends to the output list (preserving
its existing prefix) exactly `⌊|indices| / 3⌋` triangles per mesh — the
record built from the `q`-th complete index triple is `meshTriAt` (that is,
`v0` the transformed `p0` and `e1`, `e2` the transformed edge differences),
and one or two trailing indices are silently ignored. -/
theorem gather_model_triangles_characterization :
    (∀ (model : Model) (M : Mat4) (outTris : List CPU_Triangle),
      gather_model_triangles model M outTris =
        outTris ++ model.meshes.flatMap (fun mesh =>
          (List.range (mesh.indices.length / 3)).map
            (fun q => meshTriAt M mesh.vertices mesh.indices (3 * q)))) ∧
    (∀ (model : Model) (M : Mat4) (outTris : List CPU_Triangle),
      (gather_model_triangles model M outTris).length =
        outTris.length +
          (model.meshes.map (fun mesh => mesh.indices.length / 3)).sum) := by
  have main : ∀ (M : Mat4) (meshes : List Mesh) (outTris : List CPU_Triangle),
      meshes.foldl
        (fun acc mesh => gatherMeshGo M mesh.vertices mesh.indices
          mesh.indices.length 0 acc) outTris =
      outTris ++ meshes.flatMap (fun mesh =>
        (List.range (mesh.indices.length / 3)).map
          (fun q => meshTriAt M mesh.vertices mesh.indices (3 * q))) := by
    intro M meshes
    induction meshes with
    | nil => simp
    | cons m ms ih =>
      intro outTris
      have hm := gatherMeshGo_closed M m.vertices m.indices
        m.indices.length 0 outTris (by omega)
      simp only [List.foldl_cons, hm, List.flatMap_cons]
      rw [ih]
      simp [List.append_assoc]
  constructor
  · intro model M outTris
    exact main M model.meshes outTris
  · intro model M outTris
    rw [gather_model_triangles, main M model.meshes outTris]
    simp only [List.length_append, List.length_flatMap]
    congr 1
    apply congrArg
    apply List.map_congr_left
    intro mesh _
    simp

/-! ## BVH builder: list and subrange infrastructure -/

/-- `insertRef` produces a permutation of consing. -/
theorem insertRef_perm {α : Type} (le : α → α → Bool) (a : α) (l : List α) :
    (insertRef le a l).Perm (a :: l) := by
  induction l with
  | nil => simp [insertRef]
  | cons b t ih =>
    rw [insertRef]
    by_cases hc : le a b
    · simp [hc]
    · simp only [hc, if_neg, Bool.false_eq_true, not_false_eq_true]
      exact (ih.cons b).trans (List.Perm.swap a b t)

/-- `sortRefs` permutes its input. -/
theorem sortRefs_perm {α : Type} (le : α → α → Bool) (l : List α) :
    (sortRefs le l).Perm l := by
  induction l with
  | nil => simp [sortRefs]
  | cons a t ih => exact (insertRef_perm le a (sortRefs le t)).trans (ih.cons a)

/-- `sortRefs` preserves length. -/
theorem sortRefs_length {α : Type} (le : α → α → Bool) (l : List α) :
    (sortRefs le l).length = l.length :=
  (sortRefs_perm le l).length_eq

/-- Length of a subrange. -/
theorem sliceL_length {α : Type} (l : List α) (b e : Nat) (he : e ≤ l.length) :
    (sliceL l b e).length = e - b := by
  simp [sliceL]
  omega

/-- A subrange as a function of the prefix of the list. -/
theorem sliceL_eq_drop_take {α : Type} (l : List α) (b e : Nat) :
    sliceL l b e = (l.take e).drop b := by
  rw [sliceL, List.drop_take]

/-- Splitting a subrange at an interior point. -/
theorem sliceL_append {α : Type} (l : List α) (b m e : Nat)
    (h1 : b ≤ m) (h2 : m ≤ e) :
    sliceL l b e = sliceL l b m ++ sliceL l m e := by
  have he : e - b = (m - b) + (e - m) := by omega
  have hd : (List.drop b l).drop (m - b) = List.drop m l := by
    rw [List.drop_drop]
    congr 1
    omega
  rw [sliceL, sliceL, sliceL, he, List.take_add, hd]

/-- `nthElementRange` preserves length. -/
theorem nthElementRange_length (refs : List BuildRef) (b e ax : Nat)
    (hb : b ≤ e) (he : e ≤ refs.length) :
    (nthElementRange refs b e ax).length = refs.length := by
  simp [nthElementRange, sortRefs_length]
  omega

/-- `nthElementRange` leaves the prefix `[0, b)` untouched. -/
theorem nthElementRange_take (refs : List BuildRef) (b e ax : Nat)
    (hb : b ≤ e) (he : e ≤ refs.length) :
    (nthElementRange refs b e ax).take b = refs.take b := by
  have hlen : (refs.take b).length = b := by
    rw [List.length_take]
    omega
  rw [nthElementRange, List.append_assoc, List.take_left' hlen]

/-- `nthElementRange` leaves the suffix `[e, len)` untouched. -/
theorem nthElementRange_drop (refs : List BuildRef) (b e ax : Nat)
    (hb : b ≤ e) (he : e ≤ refs.length) :
    (nthElementRange refs b e ax).drop e = refs.drop e := by
  have hlen : (refs.take b ++
      sortRefs (fun r s => r.c.nth ax ≤ s.c.nth ax)
        ((refs.drop b).take (e - b))).length = e := by
    rw [List.length_append, List.length_take, sortRefs_length,
      List.length_take, List.length_drop]
    omega
  rw [nthElementRange, List.drop_left' hlen]

/-- The subrange of an `nthElementRange` result is the sorted subrange. -/
theorem nthElementRange_slice (refs : List BuildRef) (b e ax : Nat)
    (hb : b ≤ e) (he : e ≤ refs.length) :
    sliceL (nthElementRange refs b e ax) b e =
      sortRefs (fun r s => r.c.nth ax ≤ s.c.nth ax) (sliceL refs b e) := by
  have h1 : (refs.take b).length = b := by
    rw [List.length_take]
    omega
  have h2 : (sortRefs (fun r s => r.c.nth ax ≤ s.c.nth ax)
      ((refs.drop b).take (e - b))).length = e - b := by
    rw [sortRefs_length, List.length_take, List.length_drop]
    omega
  rw [sliceL, nthElementRange, List.append_assoc, List.drop_left' h1,
    List.take_left' h2, sliceL]

/-- The subrange of an `nthElementRange` result permutes the subrange. -/
theorem nthElementRange_slice_perm (refs : List BuildRef) (b e ax : Nat)
    (hb : b ≤ e) (he : e ≤ refs.length) :
    (sliceL (nthElementRange refs b e ax) b e).Perm (sliceL refs b e) := by
  rw [nthElementRange_slice refs b e ax hb he]
  exact sortRefs_perm _ _

/-- If two lists agree on `take m`, they agree on any shorter `take`. -/
theorem take_eq_of_take_eq {α : Type} {l1 l2 : List α} {b m : Nat}
    (hb : b ≤ m) (h : l1.take m = l2.take m) : l1.take b = l2.take b := by
  have h1 : (l1.take m).take b = (l2.take m).take b := by rw [h]
  rw [List.take_take, List.take_take] at h1
  simpa [Nat.min_eq_left hb] using h1

/-- If two lists agree on `drop m`, they agree on any longer `drop`. -/
theorem drop_eq_of_drop_eq {α : Type} {l1 l2 : List α} {m e : Nat}
    (hm : m ≤ e) (h : l1.drop m = l2.drop m) : l1.drop e = l2.drop e := by
  have h1 : (l1.drop m).drop (e - m) = (l2.drop m).drop (e - m) := by rw [h]
  rw [List.drop_drop, List.drop_drop] at h1
  have h2 : m + (e - m) = e := by omega
  rwa [h2] at h1

/-- A left subrange is determined by `take m`. -/
theorem sliceL_eq_of_take_eq {α : Type} {l1 l2 : List α} {b m : Nat}
    (h : l1.take m = l2.take m) : sliceL l1 b m = sliceL l2 b m := by
  rw [sliceL_eq_drop_take, sliceL_eq_drop_take, h]

/-- A right subrange is determined by `drop m`. -/
theorem sliceL_eq_of_drop_eq {α : Type} {l1 l2 : List α} {m e : Nat}
    (h : l1.drop m = l2.drop m) : sliceL l1 m e = sliceL l2 m e := by
  rw [sliceL, sliceL, h]

/-! ## Node-array lookup lemmas -/

/-- Lookup before an appended suffix. -/
theorem getN_append_lt (nodes l : List BVHNode) (k : Nat)
    (hk : k < nodes.length) : getN (nodes ++ l) k = getN nodes k := by
  rw [getN, getN, List.getD_eq_getElem?_getD, List.getD_eq_getElem?_getD,
    List.getElem?_append_left hk]

/-- Lookup of a just-appended node. -/
theorem getN_append_len (nodes : List BVHNode) (x : BVHNode) :
    getN (nodes ++ [x]) nodes.length = x := by
  rw [getN, List.getD_eq_getElem?_getD, List.getElem?_append_right (by omega)]
  simp

/-- Lookup away from a `set` position. -/
theorem getN_set_ne (nodes : List BVHNode) (n k : Nat) (x : BVHNode)
    (h : k ≠ n) : getN (nodes.set n x) k = getN nodes k := by
  rw [getN, getN, List.getD_eq_getElem?_getD, List.getD_eq_getElem?_getD,
    List.getElem?_set_ne (by omega)]

/-- Lookup at a `set` position inside the list. -/
theorem getN_set_eq (nodes : List BVHNode) (n : Nat) (x : BVHNode)
    (h : n < nodes.length) : getN (nodes.set n x) n = x := by
  rw [getN, List.getD_eq_getElem?_getD, List.getElem?_set_self' ]
  simp [List.getElem?_eq_getElem h]

/-! ## Well-formed-subtree lemmas -/

/-- Basic bounds carried by a well-formed subtree. -/
theorem WFT.bounds {lm : Nat} {nodes : List BVHNode} {i j b e : Nat}
    (h : WFT lm nodes i j b e) : i < j ∧ j ≤ nodes.length ∧ b < e := by
  induction h with
  | leaf i b e hi hbe hlm hl hr hf hc => exact ⟨by omega, by omega, hbe⟩
  | internal i k j b m e hi hc hl hr hwl hwr ihl ihr =>
    exact ⟨by omega, ihr.2.1, by omega⟩

/-- A well-formed subtree survives modifications outside its index range
(given the new array is still long enough). -/
theorem WFT.congr {lm : Nat} {nodes nodes' : List BVHNode} {i j b e : Nat}
    (h : WFT lm nodes i j b e) (hlen : j ≤ nodes'.length)
    (hag : ∀ k, i ≤ k → k < j → getN nodes' k = getN nodes k) :
    WFT lm nodes' i j b e := by
  induction h with
  | leaf i b e hi hbe hlm hl hr hf hc =>
    have hi' := hag i (le_refl i) (by omega)
    exact WFT.leaf i b e (by omega) hbe hlm (hi' ▸ hl) (hi' ▸ hr) (hi' ▸ hf)
      (hi' ▸ hc)
  | internal i k j b m e hi hc hl hr hwl hwr ihl ihr =>
    have hbl := hwl.bounds
    have hbr := hwr.bounds
    have hi' := hag i (le_refl i) (by omega)
    refine WFT.internal i k j b m e (by omega) (hi' ▸ hc) (hi' ▸ hl)
      (hi' ▸ hr) ?_ ?_
    · exact ihl (by omega) (fun kk h1 h2 => hag kk (by omega) (by omega))
    · exact ihr hlen (fun kk h1 h2 => hag kk (by omega) (by omega))

/-- Every node of a well-formed subtree is internal with `count = 0` or a
leaf with `0 < count ≤ leafMax`; the subtree is index-complete over
`[i, j)`. -/
theorem WFT.counts {lm : Nat} {nodes : List BVHNode} {i j b e : Nat}
    (h : WFT lm nodes i j b e) :
    ∀ k, i ≤ k → k < j → (getN nodes k).count = 0 ∨
      (0 < (getN nodes k).count ∧ (getN nodes k).count ≤ (lm : Int)) := by
  induction h with
  | leaf i b e hi hbe hlm hl hr hf hc =>
    intro k h1 h2
    have hk : k = i := by omega
    subst hk
    right
    rw [hc]
    constructor
    · exact_mod_cast Nat.sub_pos_of_lt hbe
    · exact_mod_cast hlm
  | internal i k j b m e hi hc hl hr hwl hwr ihl ihr =>
    intro kk h1 h2
    have hbl := hwl.bounds
    have hbr := hwr.bounds
    by_cases hki : kk = i
    · subst hki
      left
      exact hc
    · by_cases hkl : kk < k
      · exact ihl kk (by omega) hkl
      · exact ihr kk (by omega) h2

/-- Split progress: a range larger than the leaf threshold splits at the
positional median into two strictly smaller non-empty halves. -/
theorem splitMid_progress (lm b e : Nat) (hlm : 1 ≤ lm) (h : lm < e - b) :
    b < splitMid b e ∧ splitMid b e < e ∧
      splitMid b e - b < e - b ∧ e - splitMid b e < e - b := by
  rw [splitMid]
  omega

/-- Unfolding lemma for one `build_recursive` step with positive fuel. -/
theorem build_recursive_succ (f lm : Nat) (tris : List CPU_Triangle)
    (nodes : List BVHNode) (refs : List BuildRef) (b e : Nat) :
    build_recursive (f + 1) lm tris nodes refs b e =
      if e - b ≤ lm then
        (nodes ++ [⟨(rangeBox tris refs b e).1, (rangeBox tris refs b e).2,
          -1, -1, (b : Int), ((e - b : Nat) : Int)⟩], refs, nodes.length)
      else
        let refs1 := nthElementRange refs b e
          (pickAxis (rangeBox tris refs b e).1 (rangeBox tris refs b e).2)
        let l := build_recursive f lm tris
          (nodes ++ [⟨(rangeBox tris refs b e).1, (rangeBox tris refs b e).2,
            0, 0, 0, 0⟩]) refs1 b (splitMid b e)
        let r := build_recursive f lm tris l.1 l.2.1 (splitMid b e) e
        (r.1.set nodes.length
          ⟨(rangeBox tris refs b e).1, (rangeBox tris refs b e).2,
            (l.2.2 : Int), (r.2.2 : Int), -1, 0⟩, r.2.1, nodes.length) := rfl

/-- Main specification of `build_recursive`: with sufficient fuel on a
non-empty range it returns its own node index (the pre-call array length),
strictly grows the node array while preserving the existing prefix, only
permutes the reference subrange `[b, e)` (length, outside prefix/suffix
preserved), and the new nodes form a well-formed subtree tiling `[b, e)`. -/
theorem build_recursive_spec (lm : Nat) (hlm : 1 ≤ lm)
    (tris : List CPU_Triangle) :
    ∀ (fuel b e : Nat) (nodes : List BVHNode) (refs : List BuildRef),
      0 < e - b → e - b ≤ fuel → e ≤ refs.length →
      (build_recursive fuel lm tris nodes refs b e).2.2 = nodes.length ∧
      nodes.length < (build_recursive fuel lm tris nodes refs b e).1.length ∧
      (∀ k, k < nodes.length →
        getN (build_recursive fuel lm tris nodes refs b e).1 k = getN nodes k) ∧
      (build_recursive fuel lm tris nodes refs b e).2.1.length = refs.length ∧
      (build_recursive fuel lm tris nodes refs b e).2.1.take b = refs.take b ∧
      (build_recursive fuel lm tris nodes refs b e).2.1.drop e = refs.drop e ∧
      (sliceL (build_recursive fuel lm tris nodes refs b e).2.1 b e).Perm
        (sliceL refs b e) ∧
      WFT lm (build_recursive fuel lm tris nodes refs b e).1 nodes.length
        (build_recursive fuel lm tris nodes refs b e).1.length b e := by
  intro fuel
  induction fuel with
  | zero =>
    intro b e nodes refs h1 h2 h3
    omega
  | succ f ih =>
    intro b e nodes refs h1 h2 h3
    rw [build_recursive_succ]
    by_cases hleaf : e - b ≤ lm
    · rw [if_pos hleaf]
      refine ⟨rfl, by simp, ?_, rfl, rfl, rfl, List.Perm.refl _, ?_⟩
      · intro k hk
        exact getN_append_lt nodes _ k hk
      · have hlen : (nodes ++ [(⟨(rangeBox tris refs b e).1,
            (rangeBox tris refs b e).2, -1, -1, (b : Int),
            ((e - b : Nat) : Int)⟩ : BVHNode)]).length = nodes.length + 1 := by
          simp
        rw [hlen]
        have hg := getN_append_len nodes (⟨(rangeBox tris refs b e).1,
          (rangeBox tris refs b e).2, -1, -1, (b : Int),
          ((e - b : Nat) : Int)⟩ : BVHNode)
        exact WFT.leaf nodes.length b e (by simp) (by omega) hleaf
          (by rw [hg]) (by rw [hg]) (by rw [hg]) (by rw [hg])
    · rw [if_neg hleaf]
      dsimp only
      have hprog := splitMid_progress lm b e hlm (by omega)
      set mid := splitMid b e with hmid
      set ax := pickAxis (rangeBox tris refs b e).1 (rangeBox tris refs b e).2
        with hax
      set refs1 := nthElementRange refs b e ax with hrefs1
      set ph : BVHNode := ⟨(rangeBox tris refs b e).1,
        (rangeBox tris refs b e).2, 0, 0, 0, 0⟩ with hph
      have hr1len : refs1.length = refs.length :=
        nthElementRange_length refs b e ax (by omega) h3
      set L := build_recursive f lm tris (nodes ++ [ph]) refs1 b mid with hL
      set R := build_recursive f lm tris L.1 L.2.1 mid e with hR
      obtain ⟨l_root, l_len, l_prefix, l_rlen, l_take, l_drop, l_perm, l_wft⟩ :=
        ih b mid (nodes ++ [ph]) refs1 (by omega) (by omega)
          (by rw [hr1len]; omega)
      obtain ⟨r_root, r_len, r_prefix, r_rlen, r_take, r_drop, r_perm, r_wft⟩ :=
        ih mid e L.1 L.2.1 (by omega) (by omega)
          (by rw [l_rlen, hr1len]; omega)
      rw [← hL] at l_root l_len l_prefix l_rlen l_take l_drop l_perm l_wft
      rw [← hR] at r_root r_len r_prefix r_rlen r_take r_drop r_perm r_wft
      have hphlen : (nodes ++ [ph]).length = nodes.length + 1 := by simp
      rw [hphlen] at l_root l_len l_prefix l_wft
      have hfull := getN_set_eq R.1 nodes.length
        ⟨(rangeBox tris refs b e).1, (rangeBox tris refs b e).2,
          (L.2.2 : Int), (R.2.2 : Int), -1, 0⟩ (by omega)
      refine ⟨rfl, ?_, ?_, ?_, ?_, ?_, ?_, ?_⟩
      · simp only [List.length_set]
        omega
      · intro k hk
        rw [getN_set_ne R.1 nodes.length k _ (by omega),
          r_prefix k (by omega), l_prefix k (by omega),
          getN_append_lt nodes [ph] k hk]
      · rw [r_rlen, l_rlen, hr1len]
      · have h4 : R.2.1.take b = L.2.1.take b :=
          take_eq_of_take_eq (by omega) r_take
        rw [h4, l_take, hrefs1, nthElementRange_take refs b e ax (by omega) h3]
      · have h4 : L.2.1.drop e = refs1.drop e :=
          drop_eq_of_drop_eq (by omega) l_drop
        rw [r_drop, h4, hrefs1, nthElementRange_drop refs b e ax (by omega) h3]
      · have hsplit : sliceL R.2.1 b e = sliceL R.2.1 b mid ++ sliceL R.2.1 mid e :=
          sliceL_append R.2.1 b mid e (by omega) (by omega)
        have hleft : sliceL R.2.1 b mid = sliceL L.2.1 b mid :=
          sliceL_eq_of_take_eq r_take
        have hlright : sliceL L.2.1 mid e = sliceL refs1 mid e :=
          sliceL_eq_of_drop_eq l_drop
        have hperm1 : (sliceL R.2.1 b e).Perm (sliceL refs1 b mid ++ sliceL refs1 mid e) := by
          rw [hsplit, hleft]
          exact (l_perm.append (r_perm.trans (hlright ▸ List.Perm.refl _)))
        have hsplit1 : sliceL refs1 b mid ++ sliceL refs1 mid e = sliceL refs1 b e :=
          (sliceL_append refs1 b mid e (by omega) (by omega)).symm
        refine hperm1.trans ?_
        rw [hsplit1, hrefs1]
        exact nthElementRange_slice_perm refs b e ax (by omega) h3
      · simp only [List.length_set]
        have hchild_l : WFT lm (R.1.set nodes.length
            ⟨(rangeBox tris refs b e).1, (rangeBox tris refs b e).2,
              (L.2.2 : Int), (R.2.2 : Int), -1, 0⟩)
            (nodes.length + 1) L.1.length b mid := by
          refine l_wft.congr (by simp only [List.length_set]; omega) ?_
          intro kk h4 h5
          rw [getN_set_ne R.1 nodes.length kk _ (by omega), r_prefix kk h5]
        have hchild_r : WFT lm (R.1.set nodes.length
            ⟨(rangeBox tris refs b e).1, (rangeBox tris refs b e).2,
              (L.2.2 : Int), (R.2.2 : Int), -1, 0⟩)
            L.1.length R.1.length mid e := by
          refine r_wft.congr (by simp only [List.length_set]; omega) ?_
          intro kk h4 h5
          rw [getN_set_ne R.1 nodes.length kk _ (by omega)]
        refine WFT.internal nodes.length L.1.length R.1.length b mid e
          (by simp only [List.length_set]; omega) ?_ ?_ ?_ hchild_l hchild_r
        · rw [hfull]
        · rw [hfull, l_root]
        · rw [hfull, r_root]

/-- The fuel is immaterial once it covers the range size: the recursion
terminates intrinsically because each split strictly shrinks the range. -/
theorem build_recursive_fuel_irrelevant (lm : Nat) (hlm : 1 ≤ lm)
    (tris : List CPU_Triangle) :
    ∀ (n f1 f2 b e : Nat) (nodes : List BVHNode) (refs : List BuildRef),
      e - b = n → 0 < e - b → e - b ≤ f1 → e - b ≤ f2 →
      build_recursive f1 lm tris nodes refs b e =
        build_recursive f2 lm tris nodes refs b e := by
  intro n
  induction n using Nat.strong_induction_on with
  | _ n ih =>
    intro f1 f2 b e nodes refs hn h0 hf1 hf2
    cases f1 with
    | zero => omega
    | succ x =>
      cases f2 with
      | zero => omega
      | succ y =>
        rw [build_recursive_succ, build_recursive_succ]
        by_cases hleaf : e - b ≤ lm
        · rw [if_pos hleaf, if_pos hleaf]
        · rw [if_neg hleaf, if_neg hleaf]
          dsimp only
          have hprog := splitMid_progress lm b e hlm (by omega)
          rw [ih (splitMid b e - b) (by omega) x y b (splitMid b e) _ _ rfl
            (by omega) (by omega) (by omega)]
          rw [ih (e - splitMid b e) (by omega) x y (splitMid b e) e _ _ rfl
            (by omega) (by omega) (by omega)]

/-! ## Leaf-reorder DFS lemmas -/

/-- An empty stack stops the DFS regardless of fuel. -/
theorem remapGo_nil (f : Nat) (tris : List CPU_Triangle)
    (refs : List BuildRef) (nodes : List BVHNode)
    (rem : List CPU_Triangle) :
    remapGo f tris refs nodes [] rem = (nodes, rem) := by
  cases f <;> rfl

/-- Reading `n` consecutive `getD` positions from `b` is the subrange
`[b, b + n)`. -/
theorem getD_range_slice {α : Type} [Inhabited α] (l : List α) (b n : Nat)
    (h : b + n ≤ l.length) :
    (List.range n).map (fun t => l.getD (b + t) default) =
      sliceL l b (b + n) := by
  have hlen : (sliceL l b (b + n)).length = n := by
    rw [sliceL_length l b (b + n) h]
    omega
  apply List.ext_getElem
  · simp [hlen]
  · intro i h1 h2
    have hi : i < n := by simpa using h1
    have hbi : b + i < l.length := by omega
    simp only [List.getElem_map, List.getElem_range]
    rw [List.getD_eq_getElem l default hbi]
    simp only [sliceL, List.getElem_take, List.getElem_drop]

/-- Indexing every position of a list reproduces it. -/
theorem getD_range_self {α : Type} [Inhabited α] (l : List α) :
    (List.range l.length).map (fun i => l.getD i default) = l := by
  apply List.ext_getElem
  · simp
  · intro i h1 h2
    simp only [List.getElem_map, List.getElem_range]
    exact List.getD_eq_getElem l default h2

/-- Unfolding lemma for one DFS step with positive fuel. -/
theorem remapGo_cons (f : Nat) (tris : List CPU_Triangle)
    (refs : List BuildRef) (nodes : List BVHNode) (n : Nat)
    (rest : List Nat) (rem : List CPU_Triangle) :
    remapGo (f + 1) tris refs nodes (n :: rest) rem =
      if (nodes.getD n default).isLeaf then
        remapGo f tris refs
          (nodes.set n { nodes.getD n default with
            first := (((rem ++
              (List.range (nodes.getD n default).count.toNat).map
                (fun i => refTri tris
                  (refs.getD ((nodes.getD n default).first.toNat + i)
                    default))).length -
              (nodes.getD n default).count.toNat : Nat) : Int) })
          rest
          (rem ++ (List.range (nodes.getD n default).count.toNat).map
            (fun i => refTri tris
              (refs.getD ((nodes.getD n default).first.toNat + i) default)))
      else
        remapGo f tris refs nodes
          ((nodes.getD n default).right.toNat ::
            (nodes.getD n default).left.toNat :: rest) rem := rfl

/-- Core correctness of the leaf-reorder DFS on one well-formed subtree:
processing the subtree rooted at `i` emits exactly the triangles of the
reference range `[b, e)` (as a permutation), touches only node indices in
`[i, j)`, changes only `first` fields, and stamps the subtree's leaves with
fresh, pairwise-disjoint output ranges exactly covering the emitted block.
The lemma is stated for any array `nodes0` that agrees with the
well-formed one on the subtree's index range. -/
theorem remap_tree (lm : Nat) (tris : List CPU_Triangle)
    (refs : List BuildRef) {nodes : List BVHNode} {i j b e : Nat}
    (h : WFT lm nodes i j b e) :
    ∀ (nodes0 : List BVHNode), nodes0.length = nodes.length →
      (∀ k, i ≤ k → k < j → getN nodes0 k = getN nodes k) →
      e ≤ refs.length →
      ∀ (fuel : Nat) (rest : List Nat) (rem : List CPU_Triangle),
        j - i ≤ fuel →
        ∃ (nodes' : List BVHNode) (tail : List CPU_Triangle) (f' : Nat),
          remapGo fuel tris refs nodes0 (i :: rest) rem =
            remapGo f' tris refs nodes' rest (rem ++ tail) ∧
          fuel - (j - i) ≤ f' ∧
          nodes'.length = nodes0.length ∧
          (∀ k, k < i ∨ j ≤ k → getN nodes' k = getN nodes0 k) ∧
          (∀ k, (getN nodes' k).count = (getN nodes0 k).count ∧
                (getN nodes' k).left = (getN nodes0 k).left ∧
                (getN nodes' k).right = (getN nodes0 k).right ∧
                (getN nodes' k).bMin = (getN nodes0 k).bMin ∧
                (getN nodes' k).bMax = (getN nodes0 k).bMax) ∧
          tail.length = e - b ∧
          tail.Perm (sliceMap tris refs b e) ∧
          (∀ k, i ≤ k → k < j → (getN nodes' k).isLeaf →
            ((rem.length : Nat) : Int) ≤ (getN nodes' k).first ∧
            (getN nodes' k).first + (getN nodes' k).count ≤
              ((rem.length + (e - b) : Nat) : Int)) ∧
          (∀ p : Nat, rem.length ≤ p → p < rem.length + (e - b) →
            ∃ k, i ≤ k ∧ k < j ∧ (getN nodes' k).isLeaf ∧
              (getN nodes' k).first ≤ (p : Int) ∧
              (p : Int) < (getN nodes' k).first + (getN nodes' k).count) ∧
          (∀ k1 k2, i ≤ k1 → k1 < j → i ≤ k2 → k2 < j → k1 ≠ k2 →
            (getN nodes' k1).isLeaf → (getN nodes' k2).isLeaf →
            ((getN nodes' k1).first + (getN nodes' k1).count ≤
              (getN nodes' k2).first ∨
             (getN nodes' k2).first + (getN nodes' k2).count ≤
              (getN nodes' k1).first)) := by
  induction h with
  | leaf i b e hi hbe hlm hlf hrt hfi hct =>
    intro nodes0 hlen0 hag he fuel rest rem hfuel
    cases fuel with
    | zero => omega
    | succ fl =>
      have hagi : getN nodes0 i = getN nodes i := hag i (le_refl i) (by omega)
      have hgd : nodes0.getD i default = getN nodes0 i := rfl
      have hcnt : (nodes0.getD i default).count = ((e - b : Nat) : Int) := by
        rw [hgd, hagi, hct]
      have hfst : (nodes0.getD i default).first = ((b : Nat) : Int) := by
        rw [hgd, hagi, hfi]
      have hleafP : (nodes0.getD i default).isLeaf := by
        show (nodes0.getD i default).count > 0
        rw [hcnt]
        exact_mod_cast Nat.sub_pos_of_lt hbe
      have hcnt' : (nodes0.getD i default).count.toNat = e - b := by
        rw [hcnt]
        exact Int.toNat_natCast _
      have hfst' : (nodes0.getD i default).first.toNat = b := by
        rw [hfst]
        exact Int.toNat_natCast _
      have hslice : (List.range (nodes0.getD i default).count.toNat).map
          (fun t => refTri tris
            (refs.getD ((nodes0.getD i default).first.toNat + t) default)) =
          sliceMap tris refs b e := by
        rw [hcnt', hfst']
        have h1 : (List.range (e - b)).map
            (fun t => refs.getD (b + t) default) = sliceL refs b (b + (e - b)) :=
          getD_range_slice refs b (e - b) (by omega)
        have h2 : b + (e - b) = e := by omega
        rw [h2] at h1
        rw [sliceMap, ← h1, List.map_map]
        rfl
      have hslen : ((List.range (nodes0.getD i default).count.toNat).map
          (fun t => refTri tris
            (refs.getD ((nodes0.getD i default).first.toNat + t) default))).length
            = e - b := by
        rw [hslice]
        rw [sliceMap, List.length_map, sliceL_length refs b e he]
      have hbase : (rem ++ (List.range (nodes0.getD i default).count.toNat).map
          (fun t => refTri tris
            (refs.getD ((nodes0.getD i default).first.toNat + t) default))).length -
          (nodes0.getD i default).count.toNat = rem.length := by
        rw [List.length_append, hslen, hcnt']
        omega
      have hilen : i < nodes0.length := by omega
      set nd : BVHNode := { nodes0.getD i default with
          first := ((rem.length : Nat) : Int) } with hnd
      have hndc : nd.count = ((e - b : Nat) : Int) := hcnt
      have hndf : nd.first = ((rem.length : Nat) : Int) := rfl
      have hset := getN_set_eq nodes0 i nd hilen
      refine ⟨nodes0.set i nd,
        (List.range (nodes0.getD i default).count.toNat).map
          (fun t => refTri tris
            (refs.getD ((nodes0.getD i default).first.toNat + t) default)),
        fl, ?_, by omega, by simp, ?_, ?_, hslen, ?_, ?_, ?_, ?_⟩
      · rw [remapGo_cons, if_pos hleafP, hbase]
      · intro kk hk
        exact getN_set_ne nodes0 i kk _ (by omega)
      · intro kk
        by_cases hk : kk = i
        · subst hk
          rw [hset]
          exact ⟨hndc.trans hcnt.symm, rfl, rfl, rfl, rfl⟩
        · rw [getN_set_ne nodes0 i kk _ hk]
          exact ⟨rfl, rfl, rfl, rfl, rfl⟩
      · rw [hslice]
      · intro kk h1 h2 _
        have hk : kk = i := by omega
        subst hk
        rw [hset, hndf, hndc]
        constructor
        · exact le_refl _
        · omega
      · intro p hp1 hp2
        refine ⟨i, le_refl i, by omega, ?_, ?_, ?_⟩
        · rw [hset]
          show (0 : Int) < nd.count
          rw [hndc]
          exact_mod_cast Nat.sub_pos_of_lt hbe
        · rw [hset, hndf]
          exact_mod_cast hp1
        · rw [hset, hndf, hndc]
          omega
      · intro k1 k2 h1 h2 h3 h4 hne _ _
        omega
  | internal i k j b m e hi hc hlf hrt hwl hwr ihl ihr =>
    intro nodes0 hlen0 hag he fuel rest rem hfuel
    have hbl := hwl.bounds
    have hbr := hwr.bounds
    cases fuel with
    | zero => omega
    | succ fl =>
      have hagi : getN nodes0 i = getN nodes i := hag i (le_refl i) (by omega)
      have hgd : nodes0.getD i default = getN nodes0 i := rfl
      have hnotleaf : ¬(nodes0.getD i default).isLeaf := by
        show ¬((nodes0.getD i default).count > 0)
        rw [hgd, hagi, hc]
        omega
      have hrv : (nodes0.getD i default).right.toNat = k := by
        rw [hgd, hagi, hrt]
        exact Int.toNat_natCast _
      have hlv : (nodes0.getD i default).left.toNat = i + 1 := by
        rw [hgd, hagi, hlf]
        exact Int.toNat_natCast _
      obtain ⟨nodes1, tailR, f1, heq1, hf1, hlen1, hout1, hshape1, htlen1,
          htperm1, hbound1, hcover1, hdisj1⟩ :=
        ihr nodes0 hlen0 (fun kk h1 h2 => hag kk (by omega) h2) he fl
          ((i + 1) :: rest) rem (by omega)
      obtain ⟨nodes2, tailL, f2, heq2, hf2, hlen2, hout2, hshape2, htlen2,
          htperm2, hbound2, hcover2, hdisj2⟩ :=
        ihl nodes1 (by rw [hlen1, hlen0])
          (fun kk h1 h2 => by
            rw [hout1 kk (Or.inl h2)]
            exact hag kk (by omega) (by omega))
          (by omega) f1 rest (rem ++ tailR) (by omega)
      refine ⟨nodes2, tailR ++ tailL, f2, ?_, by omega, by rw [hlen2, hlen1],
        ?_, ?_, by rw [List.length_append, htlen1, htlen2]; omega, ?_, ?_, ?_,
        ?_⟩
      · rw [remapGo_cons, if_neg hnotleaf, hrv, hlv, heq1, heq2,
          List.append_assoc]
      · intro kk hkk
        rw [hout2 kk (by omega), hout1 kk (by omega)]
      · intro kk
        obtain ⟨s1, s2, s3, s4, s5⟩ := hshape2 kk
        obtain ⟨t1, t2, t3, t4, t5⟩ := hshape1 kk
        exact ⟨s1.trans t1, s2.trans t2, s3.trans t3, s4.trans t4, s5.trans t5⟩
      · have hcomm : (tailR ++ tailL).Perm (tailL ++ tailR) :=
          List.perm_append_comm
        have heqs : sliceMap tris refs b m ++ sliceMap tris refs m e =
            sliceMap tris refs b e := by
          rw [sliceMap, sliceMap, sliceMap, ← List.map_append,
            ← sliceL_append refs b m e (by omega) (by omega)]
        have happ : (tailL ++ tailR).Perm (sliceMap tris refs b e) := by
          rw [← heqs]
          exact htperm2.append htperm1
        exact hcomm.trans happ
      · intro kk h1 h2 hlkk
        by_cases hki : kk = i
        · exfalso
          apply absurd hlkk
          subst hki
          show ¬((getN nodes2 kk).count > 0)
          rw [(hshape2 kk).1, (hshape1 kk).1, hagi, hc]
          omega
        · by_cases hkl : kk < k
          · have hb2 := hbound2 kk (by omega) hkl hlkk
            rw [List.length_append, htlen1] at hb2
            constructor
            · refine le_trans ?_ hb2.1
              push_cast
              omega
            · refine le_trans hb2.2 ?_
              push_cast
              omega
          · have hlkk1 : (getN nodes1 kk).isLeaf := by
              show (getN nodes1 kk).count > 0
              have := (hshape2 kk).1
              rw [← this]
              exact hlkk
            have hb1 := hbound1 kk (by omega) h2 hlkk1
            have hsame : getN nodes2 kk = getN nodes1 kk :=
              hout2 kk (by omega)
            rw [hsame]
            constructor
            · exact hb1.1
            · refine le_trans hb1.2 ?_
              push_cast
              omega
      · intro p hp1 hp2
        by_cases hpr : p < rem.length + (e - m)
        · obtain ⟨kk, hk1, hk2, hk3, hk4, hk5⟩ := hcover1 p hp1 hpr
          have hsame : getN nodes2 kk = getN nodes1 kk := hout2 kk (by omega)
          exact ⟨kk, by omega, hk2, by rw [hsame]; exact hk3,
            by rw [hsame]; exact hk4, by rw [hsame]; exact hk5⟩
        · have hp3 : (rem ++ tailR).length ≤ p := by
            rw [List.length_append, htlen1]
            omega
          have hp4 : p < (rem ++ tailR).length + (m - b) := by
            rw [List.length_append, htlen1]
            omega
          obtain ⟨kk, hk1, hk2, hk3, hk4, hk5⟩ := hcover2 p hp3 hp4
          exact ⟨kk, by omega, by omega, hk3, hk4, hk5⟩
      · intro k1 k2 h1 h2 h3 h4 hne hl1 hl2
        have hnl : ∀ kk, i ≤ kk → kk < j → (getN nodes2 kk).isLeaf →
            kk ≠ i := by
          intro kk _ _ hlkk hki
          apply absurd hlkk
          subst hki
          show ¬((getN nodes2 kk).count > 0)
          rw [(hshape2 kk).1, (hshape1 kk).1, hagi, hc]
          omega
        have hn1 := hnl k1 h1 h2 hl1
        have hn2 := hnl k2 h3 h4 hl2
        by_cases hkl1 : k1 < k <;> by_cases hkl2 : k2 < k
        · exact hdisj2 k1 k2 (by omega) hkl1 (by omega) hkl2 hne hl1 hl2
        · -- k1 in left subtree, k2 in right subtree
          have hb2 := hbound2 k1 (by omega) hkl1 hl1
          have hl2' : (getN nodes1 k2).isLeaf := by
            show (getN nodes1 k2).count > 0
            rw [← (hshape2 k2).1]
            exact hl2
          have hb1 := hbound1 k2 (by omega) h4 hl2'
          have hsame : getN nodes2 k2 = getN nodes1 k2 := hout2 k2 (by omega)
          right
          rw [hsame]
          rw [List.length_append, htlen1] at hb2
          refine le_trans hb1.2 ?_
          refine le_trans ?_ hb2.1
          push_cast
          omega
        · -- k1 right, k2 left
          have hb2 := hbound2 k2 (by omega) hkl2 hl2
          have hl1' : (getN nodes1 k1).isLeaf := by
            show (getN nodes1 k1).count > 0
            rw [← (hshape2 k1).1]
            exact hl1
          have hb1 := hbound1 k1 (by omega) h2 hl1'
          have hsame : getN nodes2 k1 = getN nodes1 k1 := hout2 k1 (by omega)
          left
          rw [hsame]
          rw [List.length_append, htlen1] at hb2
          refine le_trans hb1.2 ?_
          refine le_trans ?_ hb2.1
          push_cast
          omega
        · -- both right
          have hsame1 : getN nodes2 k1 = getN nodes1 k1 := hout2 k1 (by omega)
          have hsame2 : getN nodes2 k2 = getN nodes1 k2 := hout2 k2 (by omega)
          rw [hsame1, hsame2]
          rw [hsame1] at hl1
          rw [hsame2] at hl2
          exact hdisj1 k1 k2 (by omega) h2 (by omega) h4 hne hl1 hl2

/-- Assembly: full correctness bundle for `build_bvh` on non-empty input.
The reordered triangle list is a permutation of the input of the same
length; every node is internal (`count = 0`) or a leaf with
`0 < count ≤ 8`; leaf ranges sit inside the output array, cover every
output position, and are pairwise disjoint. -/
theorem build_bvh_main (tris : List CPU_Triangle) (h : tris ≠ []) :
    (build_bvh tris).2.length = tris.length ∧
    (build_bvh tris).2.Perm tris ∧
    0 < (build_bvh tris).1.length ∧
    (∀ k, k < (build_bvh tris).1.length →
      (getN (build_bvh tris).1 k).count = 0 ∨
      (0 < (getN (build_bvh tris).1 k).count ∧
        (getN (build_bvh tris).1 k).count ≤ 8)) ∧
    (∀ k, k < (build_bvh tris).1.length → (getN (build_bvh tris).1 k).isLeaf →
      (0 : Int) ≤ (getN (build_bvh tris).1 k).first ∧
      (getN (build_bvh tris).1 k).first + (getN (build_bvh tris).1 k).count ≤
        ((build_bvh tris).2.length : Int)) ∧
    (∀ p : Nat, p < (build_bvh tris).2.length →
      ∃ k, k < (build_bvh tris).1.length ∧
        (getN (build_bvh tris).1 k).isLeaf ∧
        (getN (build_bvh tris).1 k).first ≤ (p : Int) ∧
        (p : Int) < (getN (build_bvh tris).1 k).first +
          (getN (build_bvh tris).1 k).count) ∧
    (∀ k1 k2, k1 < (build_bvh tris).1.length →
      k2 < (build_bvh tris).1.length → k1 ≠ k2 →
      (getN (build_bvh tris).1 k1).isLeaf →
      (getN (build_bvh tris).1 k2).isLeaf →
      ((getN (build_bvh tris).1 k1).first + (getN (build_bvh tris).1 k1).count ≤
        (getN (build_bvh tris).1 k2).first ∨
       (getN (build_bvh tris).1 k2).first + (getN (build_bvh tris).1 k2).count ≤
        (getN (build_bvh tris).1 k1).first)) := by
  have hn : 0 < tris.length := List.length_pos.mpr h
  rw [build_bvh, if_neg h]
  dsimp only
  set n := tris.length with hnn
  set refs0 := (List.range n).map
    (fun (i : Nat) => BuildRef.mk (i : Int) (tri_centroid (tris.getD i default)))
    with hrefs0
  have hreflen : refs0.length = n := by
    rw [hrefs0, List.length_map, List.length_range]
  set B := build_recursive n 8 tris [] refs0 0 n with hB
  obtain ⟨b_root, b_len, _, b_rlen, _, _, b_perm, b_wft⟩ :=
    build_recursive_spec 8 (by norm_num) tris n 0 n [] refs0
      (by omega) (by omega) (by omega)
  rw [← hB] at b_root b_len b_rlen b_perm b_wft
  simp only [List.length_nil] at b_root b_len b_wft
  have hBrlen : B.2.1.length = n := by rw [b_rlen, hreflen]
  obtain ⟨nodes', tail, f', heq, _, hlen', hout', hshape', htlen, htperm,
      hbound, hcover, hdisj⟩ :=
    remap_tree 8 tris B.2.1 b_wft B.1 rfl (fun _ _ _ => rfl) (by omega)
      (2 * B.1.length + 1) [] [] (by omega)
  rw [b_root, heq, remapGo_nil, List.nil_append] at *
  dsimp only
  simp only [List.length_nil, Nat.zero_add, Nat.sub_zero, Nat.cast_zero]
    at htlen hbound hcover
  have hN : nodes'.length = B.1.length := hlen'
  have htlen' : tail.length = n := htlen
  -- the reordered output is a permutation of the input
  have hsliceB : sliceL B.2.1 0 n = B.2.1 := by
    rw [sliceL, List.drop_zero, Nat.sub_zero, ← hBrlen, List.take_length]
  have hslice0 : sliceL refs0 0 n = refs0 := by
    rw [sliceL, List.drop_zero, Nat.sub_zero, ← hreflen, List.take_length]
  have hmap0 : refs0.map (refTri tris) = tris := by
    rw [hrefs0, List.map_map]
    have hfun : (refTri tris ∘ fun (i : Nat) =>
        BuildRef.mk (i : Int) (tri_centroid (tris.getD i default))) =
        (fun (i : Nat) => tris.getD i default) := by
      funext q
      simp [refTri]
    rw [hfun, hnn, getD_range_self]
  have hperm : tail.Perm tris := by
    rw [hsliceB, hslice0] at b_perm
    have hm := b_perm.map (refTri tris)
    rw [hmap0] at hm
    refine htperm.trans ?_
    rw [sliceMap, hsliceB]
    exact hm
  have hcounts := b_wft.counts
  refine ⟨htlen', hperm, by omega, ?_, ?_, ?_, ?_⟩
  · intro k hk
    rw [hN] at hk
    have hc := hcounts k (by omega) hk
    rw [(hshape' k).1]
    exact hc
  · intro k hk hleaf
    have hb := hbound k (by omega) (by omega) hleaf
    rw [htlen']
    exact hb
  · intro p hp
    rw [htlen'] at hp
    obtain ⟨k, hk1, hk2, hk3, hk4, hk5⟩ := hcover p (by omega) (by omega)
    exact ⟨k, by omega, hk3, hk4, hk5⟩
  · intro k1 k2 hk1 hk2 hne hl1 hl2
    rw [hN] at hk1 hk2
    exact hdisj k1 k2 (by omega) hk1 (by omega) hk2 hne hl1 hl2

/-- C3: for every non-empty triangle input, `build_bvh` returns a
reordered triangle list that is a permutation of the input, every leaf has
`count ≤ 8` (the `leafMax` it is invoked with), every leaf range lies
inside the reordered array, and every position of the reordered array
belongs to EXACTLY one leaf range (no gaps, overlaps, or duplicates). -/
theorem build_bvh_partition (tris : List CPU_Triangle) (h : tris ≠ []) :
    (build_bvh tris).2.Perm tris ∧
    (build_bvh tris).2.length = tris.length ∧
    (∀ k, k < (build_bvh tris).1.length → (getN (build_bvh tris).1 k).isLeaf →
      (getN (build_bvh tris).1 k).count ≤ 8) ∧
    (∀ k, k < (build_bvh tris).1.length → (getN (build_bvh tris).1 k).isLeaf →
      (0 : Int) ≤ (getN (build_bvh tris).1 k).first ∧
      (getN (build_bvh tris).1 k).first + (getN (build_bvh tris).1 k).count ≤
        ((build_bvh tris).2.length : Int)) ∧
    (∀ p : Nat, p < (build_bvh tris).2.length →
      ∃! k : Nat, k < (build_bvh tris).1.length ∧
        (getN (build_bvh tris).1 k).isLeaf ∧
        (getN (build_bvh tris).1 k).first ≤ (p : Int) ∧
        (p : Int) < (getN (build_bvh tris).1 k).first +
          (getN (build_bvh tris).1 k).count) := by
  obtain ⟨hlen, hperm, hpos, hcounts, hbounds, hcover, hdisj⟩ :=
    build_bvh_main tris h
  refine ⟨hperm, hlen, ?_, hbounds, ?_⟩
  · intro k hk hleaf
    rcases hcounts k hk with hc | hc
    · exfalso
      have : (getN (build_bvh tris).1 k).count > 0 := hleaf
      omega
    · exact hc.2
  · intro p hp
    obtain ⟨k, hk1, hk2, hk3, hk4⟩ := hcover p hp
    refine ⟨k, ⟨hk1, hk2, hk3, hk4⟩, ?_⟩
    intro k2 ⟨hq1, hq2, hq3, hq4⟩
    by_contra hne
    rcases hdisj k2 k hq1 hk1 hne hq2 hk2 with hd | hd <;> omega

/-- C3 (witness for `build_bvh_partition`). -/
theorem build_bvh_partition_witness :
    (build_bvh [triUnit]).2.Perm [triUnit] ∧
    (build_bvh [triUnit]).2.length = 1 :=
  ⟨(build_bvh_partition [triUnit] (by decide)).1,
   (build_bvh_partition [triUnit] (by decide)).2.1⟩

/-- C4: the recursive BVH build terminates for every input, including
inputs in which all centroids coincide on the split axis: (a) whenever a
range exceeds `leafMax = 8` the positional median splits it into two
strictly smaller, non-empty halves; (b) the result does not depend on the
fuel bound once it covers the range (the recursion is intrinsically
well-founded); (c) every node of every finished build — colocated
centroids included — satisfies the leaf condition `count ≤ 8`. -/
theorem build_recursive_terminates :
    (∀ b e : Nat, 8 < e - b →
      b < splitMid b e ∧ splitMid b e < e ∧
      splitMid b e - b < e - b ∧ e - splitMid b e < e - b) ∧
    (∀ (f1 f2 b e : Nat) (tris : List CPU_Triangle) (nodes : List BVHNode)
      (refs : List BuildRef), 0 < e - b → e - b ≤ f1 → e - b ≤ f2 →
      build_recursive f1 8 tris nodes refs b e =
        build_recursive f2 8 tris nodes refs b e) ∧
    (∀ (tris : List CPU_Triangle) (k : Nat), k < (build_bvh tris).1.length →
      (getN (build_bvh tris).1 k).count ≤ 8) := by
  refine ⟨?_, ?_, ?_⟩
  · intro b e hbe
    exact splitMid_progress 8 b e (by norm_num) hbe
  · intro f1 f2 b e tris nodes refs h0 h1 h2
    exact build_recursive_fuel_irrelevant 8 (by norm_num) tris (e - b) f1 f2
      b e nodes refs rfl h0 h1 h2
  · intro tris k hk
    by_cases h : tris = []
    · subst h
      simp [build_bvh] at hk
    · obtain ⟨_, _, _, hcounts, _, _, _⟩ := build_bvh_main tris h
      rcases hcounts k hk with hc | hc
      · omega
      · exact hc.2

/-- C4 (witness for `build_recursive_terminates`, exercised on nine
triangles whose centroids all coincide on every axis). -/
theorem build_recursive_terminates_witness :
    (0 < splitMid 0 9 ∧ splitMid 0 9 < 9 ∧
      splitMid 0 9 - 0 < 9 - 0 ∧ 9 - splitMid 0 9 < 9 - 0) ∧
    build_recursive 9 8 colocated9 [] (List.replicate 9 default) 0 9 =
      build_recursive 42 8 colocated9 [] (List.replicate 9 default) 0 9 ∧
    (getN (build_bvh colocated9).1 0).count ≤ 8 :=
  ⟨build_recursive_terminates.1 0 9 (by decide),
   build_recursive_terminates.2.1 9 42 0 9 colocated9 []
     (List.replicate 9 default) (by decide) (by decide) (by decide),
   build_recursive_terminates.2.2 colocated9 0 (by decide)⟩

/-! ## Structural isomorphism of rebuilt trees (data-independent shape) -/

/-- Equal shape lists give equal shapes at every (defaulted) lookup. -/
theorem getN_shape_eq {n1 n2 : List BVHNode}
    (h : n1.map nodeShape = n2.map nodeShape) (k : Nat) :
    nodeShape (getN n1 k) = nodeShape (getN n2 k) := by
  have hlen : n1.length = n2.length := by
    have := congrArg List.length h
    simpa using this
  by_cases hk : k < n1.length
  · have h1 : (n1.map nodeShape).getD k default =
        (n2.map nodeShape).getD k default := by rw [h]
    rw [List.getD_eq_getElem?_getD, List.getD_eq_getElem?_getD] at h1
    rw [List.getElem?_map, List.getElem?_map] at h1
    rw [List.getElem?_eq_getElem hk, List.getElem?_eq_getElem (by omega)] at h1
    simp only [Option.map_some, Option.getD_some] at h1
    rw [getN, getN, List.getD_eq_getElem n1 default hk,
      List.getD_eq_getElem n2 default (by omega)]
    exact h1
  · rw [getN, getN, List.getD_eq_default _ _ (by omega),
      List.getD_eq_default _ _ (by omega)]

/-- Projections of a shape equality. -/
theorem nodeShape_fields {a b : BVHNode} (h : nodeShape a = nodeShape b) :
    a.left = b.left ∧ a.right = b.right ∧ a.first = b.first ∧
      a.count = b.count := by
  rw [nodeShape, nodeShape, Prod.mk.injEq, Prod.mk.injEq, Prod.mk.injEq] at h
  exact ⟨h.1, h.2.1, h.2.2.1, h.2.2.2⟩

/-- `nthElementRange` output length is a function of the input length. -/
theorem nthElementRange_length_eq {r1 r2 : List BuildRef}
    (h : r1.length = r2.length) (b e a1 a2 : Nat) :
    (nthElementRange r1 b e a1).length = (nthElementRange r2 b e a2).length := by
  simp only [nthElementRange, List.length_append, List.length_take,
    sortRefs_length, List.length_drop, h]

/-- The structural fields produced by `build_recursive` depend only on the
lengths involved, never on the triangle data: two runs over equal-shape
node arrays and equal-length reference arrays produce equal-shape node
arrays, equal-length reference arrays and the same root index. -/
theorem build_recursive_shape :
    ∀ (fuel lm : Nat) (t1 : List CPU_Triangle) (n1 : List BVHNode)
      (r1 : List BuildRef) (t2 : List CPU_Triangle) (n2 : List BVHNode)
      (r2 : List BuildRef) (b e : Nat),
      n1.map nodeShape = n2.map nodeShape → r1.length = r2.length →
      (build_recursive fuel lm t1 n1 r1 b e).1.map nodeShape =
        (build_recursive fuel lm t2 n2 r2 b e).1.map nodeShape ∧
      (build_recursive fuel lm t1 n1 r1 b e).2.1.length =
        (build_recursive fuel lm t2 n2 r2 b e).2.1.length ∧
      (build_recursive fuel lm t1 n1 r1 b e).2.2 =
        (build_recursive fuel lm t2 n2 r2 b e).2.2 := by
  intro fuel
  induction fuel with
  | zero =>
    intro lm t1 n1 r1 t2 n2 r2 b e hn hr
    exact ⟨hn, hr, rfl⟩
  | succ f ih =>
    intro lm t1 n1 r1 t2 n2 r2 b e hn hr
    have hlen : n1.length = n2.length := by
      have := congrArg List.length hn
      simpa using this
    rw [build_recursive_succ, build_recursive_succ]
    by_cases hleaf : e - b ≤ lm
    · rw [if_pos hleaf, if_pos hleaf]
      refine ⟨?_, hr, by simpa using hlen⟩
      simp only [List.map_append, List.map_cons, List.map_nil, hn]
      rw [show nodeShape ⟨(rangeBox t1 r1 b e).1, (rangeBox t1 r1 b e).2,
        -1, -1, (b : Int), ((e - b : Nat) : Int)⟩ = (-1, -1, (b : Int),
        ((e - b : Nat) : Int)) from rfl]
      rw [show nodeShape ⟨(rangeBox t2 r2 b e).1, (rangeBox t2 r2 b e).2,
        -1, -1, (b : Int), ((e - b : Nat) : Int)⟩ = (-1, -1, (b : Int),
        ((e - b : Nat) : Int)) from rfl]
    · rw [if_neg hleaf, if_neg hleaf]
      dsimp only
      have hph : (n1 ++ [(⟨(rangeBox t1 r1 b e).1, (rangeBox t1 r1 b e).2,
          0, 0, 0, 0⟩ : BVHNode)]).map nodeShape =
          (n2 ++ [(⟨(rangeBox t2 r2 b e).1, (rangeBox t2 r2 b e).2,
            0, 0, 0, 0⟩ : BVHNode)]).map nodeShape := by
        simp only [List.map_append, List.map_cons, List.map_nil, hn]
        rfl
      have hr1 : (nthElementRange r1 b e (pickAxis (rangeBox t1 r1 b e).1
          (rangeBox t1 r1 b e).2)).length =
          (nthElementRange r2 b e (pickAxis (rangeBox t2 r2 b e).1
            (rangeBox t2 r2 b e).2)).length :=
        nthElementRange_length_eq hr b e _ _
      obtain ⟨l_shape, l_rlen, l_root⟩ := ih lm t1 _ _ t2 _ _ b
        (splitMid b e) hph hr1
      obtain ⟨r_shape, r_rlen, r_root⟩ := ih lm t1 _ _ t2 _ _ (splitMid b e) e
        l_shape l_rlen
      refine ⟨?_, r_rlen, by simpa using hlen⟩
      rw [List.map_set, List.map_set, r_shape]
      have hroot : nodeShape ⟨(rangeBox t1 r1 b e).1, (rangeBox t1 r1 b e).2,
          ((build_recursive f lm t1 (n1 ++ [⟨(rangeBox t1 r1 b e).1,
            (rangeBox t1 r1 b e).2, 0, 0, 0, 0⟩])
            (nthElementRange r1 b e (pickAxis (rangeBox t1 r1 b e).1
              (rangeBox t1 r1 b e).2)) b (splitMid b e)).2.2 : Int),
          ((build_recursive f lm t1 (build_recursive f lm t1
            (n1 ++ [⟨(rangeBox t1 r1 b e).1, (rangeBox t1 r1 b e).2,
              0, 0, 0, 0⟩])
            (nthElementRange r1 b e (pickAxis (rangeBox t1 r1 b e).1
              (rangeBox t1 r1 b e).2)) b (splitMid b e)).1
            (build_recursive f lm t1 (n1 ++ [⟨(rangeBox t1 r1 b e).1,
              (rangeBox t1 r1 b e).2, 0, 0, 0, 0⟩])
            (nthElementRange r1 b e (pickAxis (rangeBox t1 r1 b e).1
              (rangeBox t1 r1 b e).2)) b (splitMid b e)).2.1
            (splitMid b e) e).2.2 : Int), -1, 0⟩ =
          nodeShape ⟨(rangeBox t2 r2 b e).1, (rangeBox t2 r2 b e).2,
          ((build_recursive f lm t2 (n2 ++ [⟨(rangeBox t2 r2 b e).1,
            (rangeBox t2 r2 b e).2, 0, 0, 0, 0⟩])
            (nthElementRange r2 b e (pickAxis (rangeBox t2 r2 b e).1
              (rangeBox t2 r2 b e).2)) b (splitMid b e)).2.2 : Int),
          ((build_recursive f lm t2 (build_recursive f lm t2
            (n2 ++ [⟨(rangeBox t2 r2 b e).1, (rangeBox t2 r2 b e).2,
              0, 0, 0, 0⟩])
            (nthElementRange r2 b e (pickAxis (rangeBox t2 r2 b e).1
              (rangeBox t2 r2 b e).2)) b (splitMid b e)).1
            (build_recursive f lm t2 (n2 ++ [⟨(rangeBox t2 r2 b e).1,
              (rangeBox t2 r2 b e).2, 0, 0, 0, 0⟩])
            (nthElementRange r2 b e (pickAxis (rangeBox t2 r2 b e).1
              (rangeBox t2 r2 b e).2)) b (splitMid b e)).2.1
            (splitMid b e) e).2.2 : Int), -1, 0⟩ := by
        rw [nodeShape, nodeShape]
        rw [l_root, r_root]
      rw [hroot, hlen]

/-- Shape of a node whose `first` field is overwritten. -/
theorem nodeShape_set_first (x : BVHNode) (v : Int) :
    nodeShape { x with first := v } = (x.left, x.right, v, x.count) := rfl

/-- The reorder DFS also only depends on node shapes and list lengths. -/
theorem remapGo_shape :
    ∀ (fuel : Nat) (t1 : List CPU_Triangle) (r1 : List BuildRef)
      (n1 : List BVHNode) (stack : List Nat) (rem1 : List CPU_Triangle)
      (t2 : List CPU_Triangle) (r2 : List BuildRef) (n2 : List BVHNode)
      (rem2 : List CPU_Triangle),
      n1.map nodeShape = n2.map nodeShape → rem1.length = rem2.length →
      (remapGo fuel t1 r1 n1 stack rem1).1.map nodeShape =
        (remapGo fuel t2 r2 n2 stack rem2).1.map nodeShape ∧
      (remapGo fuel t1 r1 n1 stack rem1).2.length =
        (remapGo fuel t2 r2 n2 stack rem2).2.length := by
  intro fuel
  induction fuel with
  | zero =>
    intro t1 r1 n1 stack rem1 t2 r2 n2 rem2 hn hr
    exact ⟨hn, hr⟩
  | succ f ih =>
    intro t1 r1 n1 stack rem1 t2 r2 n2 rem2 hn hr
    match stack with
    | [] => exact ⟨hn, hr⟩
    | n :: rest =>
      have hsh := getN_shape_eq hn n
      obtain ⟨hle, hri, hfi, hco⟩ := nodeShape_fields hsh
      have hgd1 : n1.getD n default = getN n1 n := rfl
      have hgd2 : n2.getD n default = getN n2 n := rfl
      rw [remapGo_cons, remapGo_cons]
      by_cases hleaf : (n1.getD n default).isLeaf
      · have hleaf2 : (n2.getD n default).isLeaf := by
          show (n2.getD n default).count > 0
          rw [hgd2, ← hco]
          exact hleaf
        rw [if_pos hleaf, if_pos hleaf2]
        have hslen : ((List.range (n1.getD n default).count.toNat).map
            (fun i => refTri t1
              (r1.getD ((n1.getD n default).first.toNat + i) default))).length =
            ((List.range (n2.getD n default).count.toNat).map
            (fun i => refTri t2
              (r2.getD ((n2.getD n default).first.toNat + i) default))).length := by
          simp only [List.length_map, List.length_range]
          rw [hgd1, hgd2, hco]
        apply ih
        · rw [List.map_set, List.map_set, hn]
          have hbase : ((rem1 ++ (List.range (n1.getD n default).count.toNat).map
              (fun i => refTri t1
                (r1.getD ((n1.getD n default).first.toNat + i) default))).length -
              (n1.getD n default).count.toNat : Nat) =
              ((rem2 ++ (List.range (n2.getD n default).count.toNat).map
              (fun i => refTri t2
                (r2.getD ((n2.getD n default).first.toNat + i) default))).length -
              (n2.getD n default).count.toNat : Nat) := by
            rw [List.length_append, List.length_append, hslen, hr,
              hgd1, hgd2, hco]
          rw [nodeShape_set_first, nodeShape_set_first, hbase, hgd1, hgd2,
            hle, hri, hco]
        · simp only [List.length_append, hslen, hr]
      · have hleaf2 : ¬(n2.getD n default).isLeaf := by
          show ¬((n2.getD n default).count > 0)
          rw [hgd2, ← hco]
          exact hleaf
        rw [if_neg hleaf, if_neg hleaf2]
        rw [hgd1, hgd2, hle, hri]
        exact ih t1 r1 n1 _ rem1 t2 r2 n2 rem2 hn hr

/-- `build_bvh` produces shape-identical node arrays (and equally long
outputs) for any two inputs of the same length. -/
theorem build_bvh_shape (t1 t2 : List CPU_Triangle)
    (hlen : t1.length = t2.length) :
    (build_bvh t1).1.map nodeShape = (build_bvh t2).1.map nodeShape ∧
    (build_bvh t1).1.length = (build_bvh t2).1.length ∧
    (build_bvh t1).2.length = (build_bvh t2).2.length := by
  have hshape : ∀ a b : List BVHNode,
      a.map nodeShape = b.map nodeShape → a.length = b.length := by
    intro a b hab
    have := congrArg List.length hab
    simpa using this
  by_cases h : t1 = []
  · have h2 : t2 = [] := by
      rw [← List.length_eq_zero, ← hlen, h]
      rfl
    subst h
    subst h2
    exact ⟨rfl, rfl, rfl⟩
  · have h2 : t2 ≠ [] := by
      intro hc
      rw [hc] at hlen
      exact h (List.length_eq_zero.mp hlen)
    rw [build_bvh, build_bvh, if_neg h, if_neg h2]
    dsimp only
    rw [← hlen]
    set refsA := (List.range t1.length).map
      (fun (i : Nat) => BuildRef.mk (i : Int) (tri_centroid (t1.getD i default)))
      with hA
    set refsB := (List.range t1.length).map
      (fun (i : Nat) => BuildRef.mk (i : Int) (tri_centroid (t2.getD i default)))
      with hB
    set BA := build_recursive t1.length 8 t1 [] refsA 0 t1.length with hBA
    set BB := build_recursive t1.length 8 t2 [] refsB 0 t1.length with hBB
    obtain ⟨b_shape, b_rlen, b_root⟩ := build_recursive_shape t1.length 8 t1
      [] refsA t2 [] refsB 0 t1.length rfl (by rw [hA, hB]; simp)
    rw [← hBA, ← hBB] at b_shape b_rlen b_root
    have hblen : BA.1.length = BB.1.length := hshape _ _ b_shape
    rw [← hblen, ← b_root]
    obtain ⟨m_shape, m_len⟩ := remapGo_shape (2 * BA.1.length + 1) t1 BA.2.1
      BA.1 [BA.2.2] [] t2 BB.2.1 BB.1 [] b_shape rfl
    exact ⟨m_shape, hshape _ _ m_shape, m_len⟩

/-- C5 (counterexample): nine triangles whose centroids all tie on the
split axis.  Rebuilding from the BVH-reordered array yields a tree that is
structurally identical at every position (same shape fields at index 1),
yet the bounding box stored at the corresponding node index 1 DIFFERS, so
the trees are not isomorphic in the claimed sense (equal bounding boxes at
corresponding positions). -/
theorem rebuild_bbox_differs :
    nodeShape ((build_bvh ((build_bvh tieTris9).2)).1.getD 1 default) =
      nodeShape ((build_bvh tieTris9).1.getD 1 default) ∧
    ((build_bvh ((build_bvh tieTris9).2)).1.getD 1 default).bMax ≠
      ((build_bvh tieTris9).1.getD 1 default).bMax := by
  constructor <;> decide

/-- C5 (amended): rebuilding from the BVH-reordered triangle array with the
same `leafMax` yields a tree with the same node count and the same
structural fields (`left`, `right`, `first`, `count` — hence the same leaf
counts) at every corresponding position; the bounding boxes at
corresponding positions may differ when centroids tie on the split axis. -/
theorem rebuild_reordered_isomorphic (tris : List CPU_Triangle)
    (h : tris ≠ []) :
    (build_bvh ((build_bvh tris).2)).1.map nodeShape =
      (build_bvh tris).1.map nodeShape ∧
    (build_bvh ((build_bvh tris).2)).1.length = (build_bvh tris).1.length := by
  have hlen : ((build_bvh tris).2).length = tris.length :=
    (build_bvh_main tris h).1
  obtain ⟨hs, hl, _⟩ := build_bvh_shape ((build_bvh tris).2) tris hlen
  exact ⟨hs, hl⟩

/-- C5 (witness for `rebuild_reordered_isomorphic`). -/
theorem rebuild_reordered_isomorphic_witness :
    (build_bvh ((build_bvh tieTris9).2)).1.length =
      (build_bvh tieTris9).1.length :=
  (rebuild_reordered_isomorphic tieTris9 (by decide)).2
